import Mathlib

/-! # Ethermint testnet bootstrap (`client/testnet.go`)

A shallow embedding of the testnet generator of `client/testnet.go`:
the address helper `calculateIP` / `getIP`, the genesis assembler
`initGenFiles`, the genesis collector `collectGenFiles` and the orchestrator
`InitTestnet`, followed by the properties proved about them.

Conventions of the embedding.

* A Go function returning `(T, error)` becomes a function into `T × Option Error`
  where a statement speaks about both components, and a run with a result in
  `Except Failure T` elsewhere.
* Bytes are natural numbers; the wrap-around of `byte` arithmetic is written
  `% 256`.
* Library calls (key store, codec, file system, clock, random source) are
  fields of an environment record: every statement is proved for every
  environment.
-/

namespace Ethermint

/-! ## Address derivation -/

/-- The four bytes of `net.IP.To4()`; each octet is a byte kept as a natural number. -/
structure IPv4 where
  a : Nat
  b : Nat
  c : Nat
  d : Nat
deriving DecidableEq, Repr

/-- The Go expression `v + '0'` for a decimal digit `v`. -/
def digitChar (v : Nat) : Char := Char.ofNat (v + 48)

/-- The helper `ubtoa` of Go's `net` package: decimal text of one byte, one to three digits. -/
def ubtoa (v : Nat) : List Char :=
  if v < 10 then [digitChar v]
  else if v < 100 then [digitChar (v / 10), digitChar (v % 10)]
  else [digitChar (v / 100), digitChar ((v / 10) % 10), digitChar (v % 10)]

/-- The characters of `net.IP.String()` on a four byte address: the octets in decimal, dot separated. -/
def IPv4.chars (ip : IPv4) : List Char :=
  ubtoa ip.a ++ '.' :: (ubtoa ip.b ++ '.' :: (ubtoa ip.c ++ '.' :: ubtoa ip.d))

/-- The method `net.IP.String()` on a four byte address. -/
def IPv4.String (ip : IPv4) : String := String.mk ip.chars

/-- The constant `big` of Go's `net` package, the overflow guard of `dtoi`. -/
def big : Nat := 0xFFFFFF

/-- The loop of `dtoi`: consumes leading decimal digits, accumulating their value `n` and count `i`;
`none` when the value reaches `big`. -/
def dtoiLoop : List Char → Nat → Nat → Option (Nat × Nat × List Char)
  | [], n, i => some (n, i, [])
  | ch :: rest, n, i =>
    if '0' ≤ ch ∧ ch ≤ '9' then
      if n * 10 + (ch.toNat - 48) ≥ big then none
      else dtoiLoop rest (n * 10 + (ch.toNat - 48)) (i + 1)
    else some (n, i, ch :: rest)

/-- The helper `dtoi` of Go's `net` package: the decimal number at the head of `s` and the text after
it; `none` where Go reports `ok = false` (no digit, or a value of `big` or more). -/
def dtoi (s : List Char) : Option (Nat × List Char) :=
  match dtoiLoop s 0 0 with
  | none => none
  | some (n, i, rest) => if i = 0 then none else some (n, rest)

/-- The body of the field loop of Go's `parseIPv4`: `k` further fields, each introduced by a dot. -/
def parseIPv4Fields : Nat → List Char → Option (List Nat)
  | 0, s => if s.isEmpty then some [] else none
  | k + 1, s =>
    match s with
    | [] => none
    | ch :: rest =>
      if ch ≠ '.' then none
      else
        match dtoi rest with
        | none => none
        | some (n, rest2) =>
          if n > 0xFF then none
          else (parseIPv4Fields k rest2).map (fun t => n :: t)

/-- Go's `parseIPv4`: four decimal fields of at most `0xFF`, dot separated, nothing after them.
The rejection of a field with a leading zero, which later Go releases added, is left out. -/
def parseIPv4 (s : List Char) : Option IPv4 :=
  match s with
  | [] => none
  | _ :: _ =>
    match dtoi s with
    | none => none
    | some (n, rest) =>
      if n > 0xFF then none
      else
        match parseIPv4Fields 3 rest with
        | some [b, c, d] => some ⟨n, b, c, d⟩
        | _ => none

/-- The scan of Go's `net.ParseIP`: the first `.` or `:` of the text selects the parser. The IPv6
text forms (a `:` seen first) are outside this development and are rejected. -/
def ParseIPScan (whole : List Char) : List Char → Option IPv4
  | [] => none
  | ch :: rest =>
    if ch = '.' then parseIPv4 whole
    else if ch = ':' then none
    else ParseIPScan whole rest

/-- The Go expression `net.ParseIP(s).To4()` on dotted decimal text; `none` is the nil address. -/
def ParseIPTo4 (s : String) : Option IPv4 := ParseIPScan s.data s.data

/-- The loop `for j := 0; j < i; j++ { ipv4[3]++ }` of `calculateIP`, run `n` times: the last
byte is incremented as a `byte`, so that 255 is followed by 0. -/
def calculateIPLoop : Nat → IPv4 → IPv4
  | 0, ipv4 => ipv4
  | n + 1, ipv4 => calculateIPLoop n { ipv4 with d := (ipv4.d + 1) % 256 }

/-- The function `calculateIP` of `client/testnet.go`. The parser `net.ParseIP(ip).To4()` is the
argument `parseTo4`; the result is Go's pair of the address text and the error (`none` is `nil`).
A negative index runs the loop zero times. -/
def calculateIP (parseTo4 : String → Option IPv4) (ip : String) (i : Int) : String × Option String :=
  match parseTo4 ip with
  | none => ("", some (ip ++ ": non ipv4 address"))
  | some ipv4 => ((calculateIPLoop i.toNat ipv4).String, none)

/-- The function `getIP` of `client/testnet.go`; `externalIP` is the outcome of
`server.ExternalIP()`. -/
def getIP (parseTo4 : String → Option IPv4) (externalIP : String × Option String)
    (i : Int) (startingIPAddr : String) : String × Option String :=
  if startingIPAddr.length = 0 then
    match externalIP.2 with
    | some err => ("", some err)
    | none => (externalIP.1, none)
  else calculateIP parseTo4 startingIPAddr i

/-! ## Data model -/

/-- A Go `error` value, kept as its message. -/
abbrev Error := String

/-- A byte slice. -/
abbrev Bytes := List Nat

/-- A `crypto.PubKey`, kept as its bytes. -/
abbrev PubKey := List Nat

/-- An `sdk.AccAddress` / `sdk.ValAddress`: the type conversion between the two keeps the bytes. -/
abbrev Address := List Nat

/-- A `json.RawMessage`: a byte slice, `none` being the nil slice (an empty slice that is not nil
is `some []`). -/
abbrev RawMessage := Option Bytes

/-- The two ways a Go call ends without a result: a returned `error`, or a panic. -/
inductive Failure where
  | error (err : Error)
  | panic (msg : String)
deriving DecidableEq, Repr

/-- An `sdk.Coin`. -/
structure Coin where
  denom : String
  amount : Int
deriving DecidableEq, Repr

/-- The message description `stakingtypes.Description`. -/
structure Description where
  moniker : String
  identity : String
  website : String
  securityContact : String
  details : String
deriving DecidableEq, Repr

/-- The rates `stakingtypes.CommissionRates`; an `sdk.Dec` is kept as a rational number. -/
structure CommissionRates where
  rate : ℚ
  maxRate : ℚ
  maxChangeRate : ℚ
deriving DecidableEq

/-- The message `stakingtypes.MsgCreateValidator`. -/
structure MsgCreateValidator where
  description : Description
  commission : CommissionRates
  minSelfDelegation : Int
  delegatorAddress : Address
  validatorAddress : Address
  pubKey : PubKey
  value : Coin
deriving DecidableEq

/-- The fee `authtypes.StdFee`; the literal `StdFee{}` has no coins and no gas. -/
structure StdFee where
  amount : List Coin
  gas : Nat
deriving DecidableEq, Repr

/-- The transaction `authtypes.StdTx`. -/
structure StdTx where
  msgs : List MsgCreateValidator
  fee : StdFee
  signatures : List Bytes
  memo : String
deriving DecidableEq

/-- The account `authtypes.BaseAccount`. -/
structure BaseAccount where
  address : Address
  coins : List Coin
  pubKey : Option PubKey
  accountNumber : Nat
  sequence : Nat
deriving DecidableEq, Repr

/-- The account `types.EthAccount` of Ethermint. -/
structure EthAccount where
  baseAccount : BaseAccount
  codeHash : Bytes
deriving DecidableEq, Repr

/-- The document `tmtypes.GenesisDoc`, with the fields this program sets. Time is a number, 0
being the zero time of a document literal that leaves `GenesisTime` out. -/
structure GenesisDoc where
  genesisTime : Nat
  chainID : String
  validators : List PubKey
  appState : RawMessage
deriving DecidableEq, Repr

/-- The fields of `tmconfig.Config` this program reads and writes. -/
structure Config where
  rootDir : String
  moniker : String
  rpcListenAddress : String
  genesis : String
deriving DecidableEq, Repr

/-- The value `genutiltypes.InitConfig`. -/
structure InitConfig where
  chainID : String
  genTxsDir : String
  name : String
  nodeID : String
  valPubKey : PubKey
deriving DecidableEq, Repr

/-- The state `authtypes.GenesisState`. -/
structure AuthGenesisState where
  params : Bytes
  accounts : List EthAccount
deriving DecidableEq, Repr

/-- The parameters `stakingtypes.Params`. -/
structure StakingParams where
  unbondingTime : Nat
  maxValidators : Nat
  maxEntries : Nat
  historicalEntries : Nat
  bondDenom : String
deriving DecidableEq, Repr

/-- The state `stakingtypes.GenesisState`: its parameters, and every other field as one value. -/
structure StakingGenesisState where
  params : StakingParams
  others : Bytes
deriving DecidableEq, Repr

/-- The parameters `govtypes.DepositParams`. -/
structure DepositParams where
  minDeposit : List Coin
  maxDepositPeriod : Nat
deriving DecidableEq, Repr

/-- The state `govtypes.GenesisState`: its deposit parameters, and every other field as one value. -/
structure GovGenesisState where
  startingProposalID : Nat
  depositParams : DepositParams
  others : Bytes
deriving DecidableEq, Repr

/-- The parameters `mint.Params`: the denomination, and every other field as one value. -/
structure MintParams where
  mintDenom : String
  others : Bytes
deriving DecidableEq, Repr

/-- The state `mint.GenesisState`. -/
structure MintGenesisState where
  minter : Bytes
  params : MintParams
deriving DecidableEq, Repr

/-- The state `crisis.GenesisState`. -/
structure CrisisGenesisState where
  constantFee : Coin
deriving DecidableEq, Repr

/-- The map `map[string]json.RawMessage` of module name to genesis fragment; a name that is not a
key reads as the nil slice, as in Go. -/
abbrev GenesisState := String → RawMessage

/-- The effects of the program on its surroundings, in the order they happen. A file system call is
recorded when it succeeds; `removeAll` records that `os.RemoveAll` was called (its own error is
discarded by the program). The `node` of an event is the loop index during which it happened. -/
inductive Event where
  | mkdirAll (node : Nat) (path : String)
  | nodeValidatorFiles (node : Nat) (config : Config) (nodeID : String) (pubKey : PubKey)
  | newKeyring (node : Nat) (backend : String) (dir : String)
  | coinKeySaved (node : Nat) (name : String) (addr : Address)
  | ensureDir (node : Nat) (path : String)
  | writeFile (node : Nat) (file : String) (contents : Bytes)
  | signed (node : Nat) (name : String) (chainID : String) (tx : StdTx)
  | writeConfigFile (node : Nat) (path : String) (minGasPrices : String)
  | genesisSaved (node : Nat) (path : String) (doc : GenesisDoc)
  | genesisExported (node : Nat) (path : String) (doc : GenesisDoc)
  | removeAll (path : String)
deriving DecidableEq

/-! ## The run of a stretch of code -/

/-- What a stretch of code did: the effects it performed, in order, and how it ended. -/
structure Run (α : Type) where
  log : List Event
  result : Except Failure α

/-- A stretch of code with no effect and the result `a`. -/
def Run.pure {α : Type} (a : α) : Run α := ⟨[], .ok a⟩

/-- Sequencing: the second stretch runs only when the first ended with a result. -/
def Run.bind {α β : Type} (m : Run α) (f : α → Run β) : Run β :=
  match m.result with
  | .error e => ⟨m.log, .error e⟩
  | .ok a => ⟨m.log ++ (f a).log, (f a).result⟩

instance : Monad Run where
  pure := Run.pure
  bind := Run.bind

/-- One effect. -/
def emit (e : Event) : Run Unit := ⟨[e], .ok ()⟩

/-- The Go statement `return err`. -/
def fail {α : Type} (err : Error) : Run α := ⟨[], .error (.error err)⟩

/-- An effect free computation that may end in a failure. -/
def Run.ofExcept {α : Type} (r : Except Failure α) : Run α := ⟨[], r⟩

/-- The Go pattern `if err := m; err != nil { handler }`: a returned error of `m` is passed to the
handler; a panic is not caught. -/
def Run.onError {α : Type} (m : Run α) (handler : Error → Run α) : Run α :=
  match m.result with
  | .error (.error err) => ⟨m.log ++ (handler err).log, (handler err).result⟩
  | _ => m

/-! ## The surroundings of the program -/

/-- The library calls the program makes, and the constants it takes from other packages. A call
made once per loop iteration takes the loop index as its first argument: the index stands for the
moment of the call, so that the same call may answer differently for different nodes. -/
structure Env where
  /-- The constant `types.DenomDefault` of Ethermint, the native denomination. -/
  denomDefault : String
  /-- The constant `sdk.DefaultBondDenom`. -/
  defaultBondDenom : String
  /-- The variable `sdk.PowerReduction`, the number of tokens of one unit of consensus power. -/
  powerReduction : Int
  /-- The constant `clientkeys.DefaultKeyPass`. -/
  defaultKeyPass : String
  /-- The call `tmrand.Int63()`; the value used is its residue below `2 ^ 63`. -/
  int63 : Nat
  /-- The call `tmtime.Now()` of `collectGenFiles`. -/
  now : Nat
  /-- The call `net.ParseIP(s).To4()`. -/
  parseIPTo4 : String → Option IPv4
  /-- The call `server.ExternalIP()`. -/
  externalIP : Nat → String × Option Error
  /-- The call `os.MkdirAll(path, nodeDirPerm)`; `none` is the nil error. -/
  mkdirAll : Nat → String → Option Error
  /-- The call `genutil.InitializeNodeValidatorFiles(config)`: node ID and validator key. -/
  initializeNodeValidatorFiles : Nat → Config → Except Error (String × PubKey)
  /-- The call `keys.NewKeyring(service, backend, dir, ...)`; the key ring is kept as a number. -/
  newKeyring : Nat → String → String → Except Error Nat
  /-- The call `server.GenerateSaveCoinKey(kb, name, pass, true)`: address and secret. -/
  generateSaveCoinKey : Nat → Nat → String → String → Except Error (Address × String)
  /-- The call `json.Marshal` on the map with the one key `secret`. -/
  jsonMarshalSecret : String → Except Error Bytes
  /-- The call `tmos.EnsureDir(dir, 0755)`. -/
  ensureDir : Nat → String → Option Error
  /-- The call `tmos.WriteFile(file, contents, 0644)`. -/
  writeFile : Nat → String → Bytes → Option Error
  /-- The call `ethcrypto.Keccak256`. -/
  keccak256 : Bytes → Bytes
  /-- The signature made by `txBldr.SignStdTx(name, pass, tx, false)` for a builder with the given
  key ring, chain ID and memo. -/
  signStdTx : Nat → Nat → String → String → String → String → StdTx → Except Error Bytes
  /-- The call `cdc.MarshalJSON` on a signed transaction. -/
  marshalTx : StdTx → Except Error Bytes
  /-- The call `mbm.DefaultGenesis()`. -/
  defaultGenesis : GenesisState
  /-- The call `cdc.MustUnmarshalJSON` into an `authtypes.GenesisState`; `none` is its panic. -/
  unmarshalAuth : RawMessage → Option AuthGenesisState
  /-- The call `cdc.MustMarshalJSON` on an `authtypes.GenesisState`; `none` is its panic. -/
  marshalAuth : AuthGenesisState → Option Bytes
  /-- The codec calls on a `stakingtypes.GenesisState`. -/
  unmarshalStaking : RawMessage → Option StakingGenesisState
  marshalStaking : StakingGenesisState → Option Bytes
  /-- The codec calls on a `govtypes.GenesisState`. -/
  unmarshalGov : RawMessage → Option GovGenesisState
  marshalGov : GovGenesisState → Option Bytes
  /-- The codec calls on a `mint.GenesisState`. -/
  unmarshalMint : RawMessage → Option MintGenesisState
  marshalMint : MintGenesisState → Option Bytes
  /-- The codec calls on a `crisis.GenesisState`. -/
  unmarshalCrisis : RawMessage → Option CrisisGenesisState
  marshalCrisis : CrisisGenesisState → Option Bytes
  /-- The call `codec.MarshalJSONIndent(cdc, appGenState)`. -/
  marshalJSONIndent : GenesisState → Except Error Bytes
  /-- The call `genDoc.SaveAs(file)`. -/
  saveAs : Nat → String → GenesisDoc → Option Error
  /-- The call `tmtypes.GenesisDocFromFile(file)`. -/
  genesisDocFromFile : Nat → String → Except Error GenesisDoc
  /-- The call `genutil.GenAppStateFromConfig(cdc, config, initCfg, genDoc, genAccIterator)`, the
  derivation of the application state from the staged transactions. -/
  genAppStateFromConfig : Nat → Config → InitConfig → GenesisDoc → Except Error RawMessage
  /-- The outcome of `genutil.ExportGenesisFileWithTime` on the document it builds. -/
  exportGenesisFile : Nat → String → GenesisDoc → Option Error

/-! ## Library functions with a fixed meaning -/

/-- The elements of a path between its slashes; `cur` holds, reversed, the characters read of the
element at hand. -/
def splitSlash : List Char → List Char → List (List Char)
  | [], cur => [cur.reverse]
  | ch :: rest, cur =>
    if ch = '/' then cur.reverse :: splitSlash rest [] else splitSlash rest (ch :: cur)

/-- One step of Go's `filepath.Clean` on Unix, on the elements kept so far (last one first): an
empty element and `.` are dropped; `..` removes the element before it, is dropped at the root, and
is kept where a relative path has nothing left to remove; any other element is kept. -/
def cleanStep (rooted : Bool) (kept : List (List Char)) (elem : List Char) : List (List Char) :=
  if elem = [] ∨ elem = ['.'] then kept
  else if elem = ['.', '.'] then
    match kept with
    | [] => if rooted then [] else [elem]
    | top :: below => if top = ['.', '.'] then elem :: kept else below
  else elem :: kept

/-- Go's `filepath.Clean` on Unix: the shortest path that names the same file by its text alone;
the empty path cleans to `.`. -/
def filepathClean (path : String) : String :=
  if path = "" then "."
  else
    let rooted : Bool := path.data.head? = some '/'
    let kept := ((splitSlash path.data []).foldl (cleanStep rooted) []).reverse
    let body := "/".intercalate (kept.map String.mk)
    if rooted then "/" ++ body
    else if body = "" then "."
    else body

/-- Go's `filepath.Join` on Unix: the empty text when every element is empty, and otherwise the
non-empty elements, slash separated and cleaned. -/
def filepathJoin (elems : List String) : String :=
  if (elems.filter (fun e => e ≠ "")).isEmpty then ""
  else filepathClean ("/".intercalate (elems.filter (fun e => e ≠ "")))

/-- The method `Config.SetRoot`. -/
def Config.SetRoot (config : Config) (root : String) : Config := { config with rootDir := root }

/-- The method `Config.GenesisFile`: the genesis path, under the root unless it is absolute. -/
def Config.GenesisFile (config : Config) : String :=
  if config.genesis.data.head? = some '/' then config.genesis
  else filepathJoin [config.rootDir, config.genesis]

/-- The function `genutiltypes.NewInitConfig`. -/
def NewInitConfig (chainID genTxsDir name nodeID : String) (valPubKey : PubKey) : InitConfig :=
  ⟨chainID, genTxsDir, name, nodeID, valPubKey⟩

/-- The function `sdk.TokensFromConsensusPower`. -/
def TokensFromConsensusPower (powerReduction : Int) (power : Int) : Int := power * powerReduction

/-- The function `sdk.NewCoin`: it panics on a negative amount. The check of the denomination
text is not part of this development. -/
def NewCoin (denom : String) (amount : Int) : Except Failure Coin :=
  if amount < 0 then .error (.panic "negative coin amount") else .ok ⟨denom, amount⟩

/-- The helper `findDup` of `sdk.Coins`: whether two neighbours carry the same denomination. -/
def findDup : List Coin → Bool
  | [] => false
  | [_] => false
  | x :: y :: rest => x.denom = y.denom || findDup (y :: rest)

/-- Go's order on strings, byte by byte, as a test `x <= y` on the characters: the order of the
code points is the order of their UTF-8 bytes. -/
def stringLE : List Char → List Char → Bool
  | [], _ => true
  | _ :: _, [] => false
  | x :: xs, y :: ys =>
    if x.toNat < y.toNat then true
    else if y.toNat < x.toNat then false
    else stringLE xs ys

/-- The function `sdk.NewCoins`: coins of amount zero are dropped, the rest is sorted by
denomination, and a denomination that occurs twice makes it panic. -/
def NewCoins (coins : List Coin) : Except Failure (List Coin) :=
  let newCoins := coins.filter (fun c => c.amount ≠ 0)
  if newCoins.isEmpty then .ok []
  else
    let sorted := newCoins.insertionSort (fun x y => stringLE x.denom.data y.denom.data = true)
    if findDup sorted then .error (.panic "find duplicate denom") else .ok sorted

/-- The method `Coins.AmountOf`: the amount held of one denomination, zero when it is absent. -/
def AmountOf (coins : List Coin) (denom : String) : Int :=
  match coins.find? (fun c => c.denom = denom) with
  | some c => c.amount
  | none => 0

/-- The function `authtypes.NewBaseAccount`. -/
def NewBaseAccount (address : Address) (coins : List Coin) (pubKey : Option PubKey)
    (accountNumber sequence : Nat) : BaseAccount :=
  ⟨address, coins, pubKey, accountNumber, sequence⟩

/-- The function `stakingtypes.NewDescription`. -/
def NewDescription (moniker identity website securityContact details : String) : Description :=
  ⟨moniker, identity, website, securityContact, details⟩

/-- The function `stakingtypes.NewCommissionRates`. -/
def NewCommissionRates (rate maxRate maxChangeRate : ℚ) : CommissionRates :=
  ⟨rate, maxRate, maxChangeRate⟩

/-- The function `stakingtypes.NewMsgCreateValidator`: the delegator is the validator's own
account. -/
def NewMsgCreateValidator (valAddr : Address) (pubKey : PubKey) (selfDelegation : Coin)
    (description : Description) (commission : CommissionRates) (minSelfDelegation : Int) :
    MsgCreateValidator :=
  { description := description
    commission := commission
    minSelfDelegation := minSelfDelegation
    delegatorAddress := valAddr
    validatorAddress := valAddr
    pubKey := pubKey
    value := selfDelegation }

/-- The function `authtypes.NewStdTx`. -/
def NewStdTx (msgs : List MsgCreateValidator) (fee : StdFee) (sigs : List Bytes) (memo : String) :
    StdTx :=
  ⟨msgs, fee, sigs, memo⟩

/-- The module names `authtypes.ModuleName`, `stakingtypes.ModuleName`, `govtypes.ModuleName`,
`mint.ModuleName` and `crisis.ModuleName` of the SDK. -/
def authModuleName : String := "auth"
def stakingModuleName : String := "staking"
def govModuleName : String := "gov"
def mintModuleName : String := "mint"
def crisisModuleName : String := "crisis"

/-- The outcome of a `cdc.MustUnmarshalJSON` or `cdc.MustMarshalJSON`: a value, or a panic. -/
def must {α : Type} (what : String) (r : Option α) : Except Failure α :=
  match r with
  | some a => .ok a
  | none => .error (.panic what)

/-! ## The program: `client/testnet.go` -/

/-- A Go result that is only an `error`, as a result with no value. -/
def errorOnly (r : Option Error) : Except Error Unit :=
  match r with
  | some err => .error err
  | none => .ok ()

/-- A Go result pair of a value and an `error`. -/
def valueAndError {α : Type} (r : α × Option Error) : Except Error α :=
  match r.2 with
  | some err => .error err
  | none => .ok r.1

/-- The Go pattern `x, err := call; if err != nil { return err }`. -/
def orReturn {α : Type} (r : Except Error α) : Run α :=
  match r with
  | .error err => fail err
  | .ok a => Run.pure a

/-- The Go statements `_ = os.RemoveAll(outputDir); return err`. -/
def rollback {α : Type} (outputDir : String) (err : Error) : Run α :=
  ⟨[.removeAll outputDir], .error (.error err)⟩

/-- The Go pattern `x, err := call; if err != nil { _ = os.RemoveAll(outputDir); return err }`. -/
def orRollback {α : Type} (outputDir : String) (r : Except Error α) : Run α :=
  match r with
  | .error err => rollback outputDir err
  | .ok a => Run.pure a

/-- The function `writeFile` of `client/testnet.go`. -/
def writeFile (env : Env) (node : Nat) (name : String) (dir : String) (contents : Bytes) :
    Run Unit := do
  let writePath := filepathJoin [dir]
  let file := filepathJoin [writePath, name]
  orReturn (errorOnly (env.ensureDir node writePath))
  emit (.ensureDir node writePath)
  orReturn (errorOnly (env.writeFile node file contents))
  emit (.writeFile node file contents)

/-- Lines 265 to 303 of `initGenFiles`: the application state, assembled from the default genesis
of the modules. Every `Must` call and the index `MinDeposit[0]` can panic. -/
def initGenFilesAppGenState (env : Env) (genAccounts : List EthAccount) :
    Except Failure GenesisState := do
  let appGenState := env.defaultGenesis
  -- set the accounts in the genesis state
  let authGenState ← must "MustUnmarshalJSON" (env.unmarshalAuth (appGenState authModuleName))
  let authGenState := { authGenState with accounts := genAccounts }
  let authJSON ← must "MustMarshalJSON" (env.marshalAuth authGenState)
  let appGenState := Function.update appGenState authModuleName (some authJSON)
  let stakingGenState ←
    must "MustUnmarshalJSON" (env.unmarshalStaking (appGenState stakingModuleName))
  let stakingGenState :=
    { stakingGenState with params := { stakingGenState.params with bondDenom := env.denomDefault } }
  let stakingJSON ← must "MustMarshalJSON" (env.marshalStaking stakingGenState)
  let appGenState := Function.update appGenState stakingModuleName (some stakingJSON)
  let govGenState ← must "MustUnmarshalJSON" (env.unmarshalGov (appGenState govModuleName))
  let govGenState ←
    match govGenState.depositParams.minDeposit with
    | [] => Except.error (Failure.panic "index out of range")
    | coin :: rest =>
      Except.ok { govGenState with
        depositParams := { govGenState.depositParams with
          minDeposit := { coin with denom := env.denomDefault } :: rest } }
  let govJSON ← must "MustMarshalJSON" (env.marshalGov govGenState)
  let appGenState := Function.update appGenState govModuleName (some govJSON)
  let mintGenState ← must "MustUnmarshalJSON" (env.unmarshalMint (appGenState mintModuleName))
  let mintGenState :=
    { mintGenState with params := { mintGenState.params with mintDenom := env.denomDefault } }
  let mintJSON ← must "MustMarshalJSON" (env.marshalMint mintGenState)
  let appGenState := Function.update appGenState mintModuleName (some mintJSON)
  let crisisGenState ←
    must "MustUnmarshalJSON" (env.unmarshalCrisis (appGenState crisisModuleName))
  let crisisGenState :=
    { crisisGenState with
      constantFee := { crisisGenState.constantFee with denom := env.denomDefault } }
  let crisisJSON ← must "MustMarshalJSON" (env.marshalCrisis crisisGenState)
  let appGenState := Function.update appGenState crisisModuleName (some crisisJSON)
  return appGenState

/-- The loop at the end of `initGenFiles`: `k` iterations from index `i`, each saving the draft
document as the genesis file of one node. -/
def initGenFilesLoop (env : Env) (genDoc : GenesisDoc) (genFiles : List String) :
    Nat → Nat → Run Unit
  | 0, _ => pure ()
  | k + 1, i => do
    let genFile ← Run.ofExcept (must "index out of range" genFiles[i]?)
    orReturn (errorOnly (env.saveAs i genFile genDoc))
    emit (.genesisSaved i genFile genDoc)
    initGenFilesLoop env genDoc genFiles k (i + 1)

/-- The function `initGenFiles` of `client/testnet.go`. -/
def initGenFiles (env : Env) (chainID : String) (genAccounts : List EthAccount)
    (genFiles : List String) (numValidators : Nat) : Run Unit := do
  let appGenState ← Run.ofExcept (initGenFilesAppGenState env genAccounts)
  let appGenStateJSON ← orReturn (env.marshalJSONIndent appGenState)
  let genDoc : GenesisDoc :=
    { genesisTime := 0, chainID := chainID, validators := [], appState := some appGenStateJSON }
  -- generate empty genesis files for each validator and save
  initGenFilesLoop env genDoc genFiles numValidators 0

/-- The function `genutil.ExportGenesisFileWithTime`: it builds the document from its arguments
and writes it; validation and writing may fail. -/
def ExportGenesisFileWithTime (env : Env) (node : Nat) (genFile : String) (chainID : String)
    (validators : List PubKey) (appState : RawMessage) (genTime : Nat) : Run Unit := do
  let genDoc : GenesisDoc :=
    { genesisTime := genTime, chainID := chainID, validators := validators, appState := appState }
  orReturn (errorOnly (env.exportGenesisFile node genFile genDoc))
  emit (.genesisExported node genFile genDoc)

/-- The loop of `collectGenFiles`: `k` iterations from index `i`, with the shared `config` and the
variable `appState` as they stand when the iteration starts. -/
def collectGenFilesLoop (env : Env) (chainID : String) (nodeIDs : Nat → String)
    (valPubKeys : Nat → PubKey) (outputDir nodeDirPrefix nodeDaemonHome : String) (genTime : Nat) :
    Nat → Nat → Config → RawMessage → Run Unit
  | 0, _, _, _ => pure ()
  | k + 1, i, config, appState => do
    let nodeDirName := nodeDirPrefix ++ toString i
    let nodeDir := filepathJoin [outputDir, nodeDirName, nodeDaemonHome]
    let gentxsDir := filepathJoin [outputDir, "gentxs"]
    let config := { config with moniker := nodeDirName }
    let config := config.SetRoot nodeDir
    let nodeID := nodeIDs i
    let valPubKey := valPubKeys i
    let initCfg := NewInitConfig chainID gentxsDir nodeID nodeID valPubKey
    let genDoc ← orReturn (env.genesisDocFromFile i config.GenesisFile)
    let nodeAppState ← orReturn (env.genAppStateFromConfig i config initCfg genDoc)
    -- set the canonical application state (they should not differ)
    let appState := if appState = none then nodeAppState else appState
    let genFile := config.GenesisFile
    -- overwrite each validator's genesis file to have a canonical genesis time
    ExportGenesisFileWithTime env i genFile chainID [] appState genTime
    collectGenFilesLoop env chainID nodeIDs valPubKeys outputDir nodeDirPrefix nodeDaemonHome
      genTime k (i + 1) config appState

/-- The function `collectGenFiles` of `client/testnet.go`. The slices `nodeIDs` and `valPubKeys`
have length `numValidators` and are read below that index only: they are functions of the
index. -/
def collectGenFiles (env : Env) (config : Config) (chainID : String) (nodeIDs : Nat → String)
    (valPubKeys : Nat → PubKey) (numValidators : Nat)
    (outputDir nodeDirPrefix nodeDaemonHome : String) : Run Unit :=
  let appState : RawMessage := none
  let genTime := env.now
  collectGenFilesLoop env chainID nodeIDs valPubKeys outputDir nodeDirPrefix nodeDaemonHome
    genTime numValidators 0 config appState

/-- The string and integer arguments of `InitTestnet`. The validator count is a natural number:
a negative count makes the first `make` panic before anything happens. -/
structure Params where
  outputDir : String
  chainID : String
  minGasPrices : String
  nodeDirPrefix : String
  nodeDaemonHome : String
  nodeCLIHome : String
  startingIPAddress : String
  keyringBackend : String
  numValidators : Nat

/-- The variables of `InitTestnet` that live across the iterations of its loop. The slices
`nodeIDs` and `valPubKeys`, made with length `numValidators` and indexed below it only, are
functions of the index. -/
structure LoopState where
  config : Config
  nodeIDs : Nat → String
  valPubKeys : Nat → PubKey
  genAccounts : List EthAccount
  genFiles : List String

/-- Lines 108 to 110 of `InitTestnet`: the chain ID of the run. -/
def chainIDOrRandom (env : Env) (chainID : String) : String :=
  if chainID = "" then toString (env.int63 % 2 ^ 63) else chainID

/-- The body of the loop of `InitTestnet` for node `i`: keys, node ID and signed join
transaction. -/
def initNode (env : Env) (p : Params) (chainID : String) (i : Nat) (st : LoopState) :
    Run LoopState := do
  let nodeDirName := p.nodeDirPrefix ++ toString i
  let nodeDir := filepathJoin [p.outputDir, nodeDirName, p.nodeDaemonHome]
  let clientDir := filepathJoin [p.outputDir, nodeDirName, p.nodeCLIHome]
  let gentxsDir := filepathJoin [p.outputDir, "gentxs"]
  let config := st.config.SetRoot nodeDir
  let config := { config with rpcListenAddress := "tcp://0.0.0.0:26657" }
  orRollback p.outputDir (errorOnly (env.mkdirAll i (filepathJoin [nodeDir, "config"])))
  emit (.mkdirAll i (filepathJoin [nodeDir, "config"]))
  orRollback p.outputDir (errorOnly (env.mkdirAll i clientDir))
  emit (.mkdirAll i clientDir)
  let config := { config with moniker := nodeDirName }
  let ip ← orRollback p.outputDir
    (valueAndError (getIP env.parseIPTo4 (env.externalIP i) (i : Int) p.startingIPAddress))
  let (nodeID, valPubKey) ← orRollback p.outputDir (env.initializeNodeValidatorFiles i config)
  emit (.nodeValidatorFiles i config nodeID valPubKey)
  let nodeIDs := Function.update st.nodeIDs i nodeID
  let valPubKeys := Function.update st.valPubKeys i valPubKey
  let memo := nodeIDs i ++ "@" ++ ip ++ ":26656"
  let genFiles := st.genFiles ++ [config.GenesisFile]
  let kb ← orReturn (env.newKeyring i p.keyringBackend clientDir)
  emit (.newKeyring i p.keyringBackend clientDir)
  let keyPass := env.defaultKeyPass
  let (addr, secret) ← orRollback p.outputDir (env.generateSaveCoinKey i kb nodeDirName keyPass)
  emit (.coinKeySaved i nodeDirName addr)
  let cliPrint ← orReturn (env.jsonMarshalSecret secret)
  -- save private key seed words
  writeFile env i "key_seed.json" clientDir cliPrint
  let accTokens := TokensFromConsensusPower env.powerReduction 1000
  let accStakingTokens := TokensFromConsensusPower env.powerReduction 5000
  let coin1 ← Run.ofExcept (NewCoin env.defaultBondDenom accTokens)
  let coin2 ← Run.ofExcept (NewCoin env.denomDefault accStakingTokens)
  let coins ← Run.ofExcept (NewCoins [coin1, coin2])
  let genAccounts := st.genAccounts ++
    [{ baseAccount := NewBaseAccount addr coins none 0 0, codeHash := env.keccak256 [] }]
  let valTokens := TokensFromConsensusPower env.powerReduction 100
  let selfDelegation ← Run.ofExcept (NewCoin env.denomDefault valTokens)
  let msg := NewMsgCreateValidator addr (valPubKeys i) selfDelegation
    (NewDescription nodeDirName "" "" "" "") (NewCommissionRates 1 1 1) 1
  let tx := NewStdTx [msg] ⟨[], 0⟩ [] memo
  let sig ← orRollback p.outputDir
    (env.signStdTx i kb chainID memo nodeDirName env.defaultKeyPass tx)
  emit (.signed i nodeDirName chainID tx)
  let signedTx := NewStdTx tx.msgs tx.fee [sig] tx.memo
  let txBytes ← orRollback p.outputDir (env.marshalTx signedTx)
  -- gather gentxs folder
  (writeFile env i (nodeDirName ++ ".json") gentxsDir txBytes).onError
    (fun err => rollback p.outputDir err)
  emit (.writeConfigFile i (filepathJoin [nodeDir, "config/app.toml"]) p.minGasPrices)
  return { config := config, nodeIDs := nodeIDs, valPubKeys := valPubKeys,
           genAccounts := genAccounts, genFiles := genFiles }

/-- The loop of `InitTestnet`: `k` iterations from index `i`. -/
def initNodes (env : Env) (p : Params) (chainID : String) : Nat → Nat → LoopState → Run LoopState
  | 0, _, st => pure st
  | k + 1, i, st => do
    let st ← initNode env p chainID i st
    initNodes env p chainID k (i + 1) st

/-- The variables of `InitTestnet` before the first iteration of its loop: the slices made by
`make` hold zero values, the slices declared by `var` are empty. -/
def initialLoopState (config : Config) : LoopState :=
  { config := config
    nodeIDs := fun _ => ""
    valPubKeys := fun _ => []
    genAccounts := []
    genFiles := [] }

/-- The function `InitTestnet` of `client/testnet.go`. The messages it prints are not part of
this development. -/
def InitTestnet (env : Env) (config : Config) (p : Params) : Run Unit := do
  let chainID := chainIDOrRandom env p.chainID
  -- generate private keys, node IDs, and initial transactions
  let st ← initNodes env p chainID p.numValidators 0 (initialLoopState config)
  initGenFiles env chainID st.genAccounts st.genFiles p.numValidators
  collectGenFiles env st.config chainID st.nodeIDs st.valPubKeys p.numValidators
    p.outputDir p.nodeDirPrefix p.nodeDaemonHome

/-! ## Names for what the statements speak about -/

/-- The shared `config` as `collectGenFiles` has set it while it processes node `i`: the moniker
and the root are those of the node, the other fields are untouched. -/
def collectConfig (config : Config) (outputDir nodeDirPrefix nodeDaemonHome : String) (i : Nat) :
    Config :=
  ({ config with moniker := nodeDirPrefix ++ toString i }).SetRoot
    (filepathJoin [outputDir, nodeDirPrefix ++ toString i, nodeDaemonHome])

/-- The outcome of the two library calls `collectGenFiles` makes for node `i` before it writes:
the draft document is read and the application state is derived from it. -/
def nodeAppState (env : Env) (config : Config) (chainID : String) (nodeIDs : Nat → String)
    (valPubKeys : Nat → PubKey) (outputDir nodeDirPrefix nodeDaemonHome : String) (i : Nat) :
    Except Error RawMessage :=
  match env.genesisDocFromFile i
      (collectConfig config outputDir nodeDirPrefix nodeDaemonHome i).GenesisFile with
  | .error err => .error err
  | .ok genDoc =>
    env.genAppStateFromConfig i (collectConfig config outputDir nodeDirPrefix nodeDaemonHome i)
      (NewInitConfig chainID (filepathJoin [outputDir, "gentxs"]) (nodeIDs i) (nodeIDs i)
        (valPubKeys i)) genDoc

/-- The application state derived for node `i`, the nil slice when the derivation failed. -/
def derivedAppState (env : Env) (config : Config) (chainID : String) (nodeIDs : Nat → String)
    (valPubKeys : Nat → PubKey) (outputDir nodeDirPrefix nodeDaemonHome : String) (i : Nat) :
    RawMessage :=
  match nodeAppState env config chainID nodeIDs valPubKeys outputDir nodeDirPrefix nodeDaemonHome i
    with
  | .ok r => r
  | .error _ => none

/-- The contract of `genutil.GenAppStateFromConfig`: when it returns no error, the application
state it returns is the output of `codec.MarshalJSONIndent`, which is not the nil slice. -/
def DerivationNeverNil (env : Env) : Prop :=
  ∀ (i : Nat) (config : Config) (initCfg : InitConfig) (genDoc : GenesisDoc),
    env.genAppStateFromConfig i config initCfg genDoc ≠ .ok none

/-- The first value of `derived 0, ..., derived (n - 1)` that is not the nil slice, and the nil
slice when there is none. -/
def firstNonNil (derived : Nat → RawMessage) : Nat → RawMessage
  | 0 => none
  | n + 1 => if firstNonNil derived n = none then derived n else firstNonNil derived n

/-- The document `collectGenFiles` writes with the application state `appState`. -/
def collectedDoc (env : Env) (chainID : String) (appState : RawMessage) : GenesisDoc :=
  { genesisTime := env.now, chainID := chainID, validators := [], appState := appState }

/-- The shared `config` as `InitTestnet` has set it while it processes node `i`. -/
def initNodeConfig (config : Config) (p : Params) (i : Nat) : Config :=
  { rootDir := filepathJoin [p.outputDir, p.nodeDirPrefix ++ toString i, p.nodeDaemonHome]
    moniker := p.nodeDirPrefix ++ toString i
    rpcListenAddress := "tcp://0.0.0.0:26657"
    genesis := config.genesis }

/-- What the library calls of one iteration of `InitTestnet` answered: the address of the node,
its node ID and validator key, its key ring, the address and secret of its account, and the coins
of the account. -/
structure NodeValues where
  ip : String
  nodeID : String
  valPubKey : PubKey
  kb : Nat
  addr : Address
  secret : String
  coins : List Coin

/-- The values `v` are those of node `i`: each library call of the iteration, up to the making of
the account coins, answered without error with the matching value (so the token multiplier is not
negative, `sdk.NewCoin` having accepted the amounts). -/
def GeneratedNode (env : Env) (p : Params) (config : Config) (i : Nat) (v : NodeValues) : Prop :=
  getIP env.parseIPTo4 (env.externalIP i) (i : Int) p.startingIPAddress = (v.ip, none)
  ∧ env.initializeNodeValidatorFiles i (initNodeConfig config p i) = .ok (v.nodeID, v.valPubKey)
  ∧ env.newKeyring i p.keyringBackend
      (filepathJoin [p.outputDir, p.nodeDirPrefix ++ toString i, p.nodeCLIHome]) = .ok v.kb
  ∧ env.generateSaveCoinKey i v.kb (p.nodeDirPrefix ++ toString i) env.defaultKeyPass
      = .ok (v.addr, v.secret)
  ∧ 0 ≤ env.powerReduction
  ∧ NewCoins [⟨env.defaultBondDenom, TokensFromConsensusPower env.powerReduction 1000⟩,
      ⟨env.denomDefault, TokensFromConsensusPower env.powerReduction 5000⟩] = .ok v.coins

/-- The genesis account `InitTestnet` makes for a node. -/
def nodeAccount (env : Env) (v : NodeValues) : EthAccount :=
  { baseAccount := NewBaseAccount v.addr v.coins none 0 0, codeHash := env.keccak256 [] }

/-- The create-validator message `InitTestnet` makes for node `i`. -/
def joinMsg (env : Env) (p : Params) (i : Nat) (v : NodeValues) : MsgCreateValidator :=
  NewMsgCreateValidator v.addr v.valPubKey
    ⟨env.denomDefault, TokensFromConsensusPower env.powerReduction 100⟩
    (NewDescription (p.nodeDirPrefix ++ toString i) "" "" "" "") (NewCommissionRates 1 1 1) 1

/-- The join transaction `InitTestnet` hands to the signer for node `i`. -/
def joinTx (env : Env) (p : Params) (i : Nat) (v : NodeValues) : StdTx :=
  NewStdTx [joinMsg env p i v] ⟨[], 0⟩ [] (v.nodeID ++ "@" ++ v.ip ++ ":26656")

/-- The chain ID an event carries: the one a transaction was signed for, or the one of a genesis
document written. -/
def eventChainID : Event → Option String
  | .signed _ _ chainID _ => some chainID
  | .genesisSaved _ _ doc => some doc.chainID
  | .genesisExported _ _ doc => some doc.chainID
  | _ => none

/-- The node and the memo of a join transaction that was signed. -/
def signedMemo : Event → Option (Nat × String)
  | .signed node _ _ tx => some (node, tx.memo)
  | _ => none

/-! ## Concrete surroundings, for instances of the statements -/

/-- A toy codec for the five module states: the default fragment of module number `n` is the one
byte `n`, and an assembled fragment is that byte followed by a byte count. -/
def demoFragment (n : Nat) (r : RawMessage) : Bool := r = some [n]

/-- Surroundings in which every library call succeeds. -/
def demoEnv : Env where
  denomDefault := "aphoton"
  defaultBondDenom := "stake"
  powerReduction := 1000000
  defaultKeyPass := "12345678"
  int63 := 2 ^ 63 + 42
  now := 1600000000
  parseIPTo4 := ParseIPTo4
  externalIP := fun _ => ("10.0.0.9", none)
  mkdirAll := fun _ _ => none
  initializeNodeValidatorFiles := fun i _ => .ok ("id" ++ toString i, [i])
  newKeyring := fun i _ _ => .ok i
  generateSaveCoinKey := fun i _ _ _ => .ok ([i], "secret words")
  jsonMarshalSecret := fun secret => .ok (secret.data.map Char.toNat)
  ensureDir := fun _ _ => none
  writeFile := fun _ _ _ => none
  keccak256 := fun _ => [197, 210]
  signStdTx := fun i _ _ _ _ _ _ => .ok [i]
  marshalTx := fun tx => .ok (tx.memo.data.map Char.toNat)
  defaultGenesis := fun name =>
    if name = authModuleName then some [1]
    else if name = stakingModuleName then some [2]
    else if name = govModuleName then some [3]
    else if name = mintModuleName then some [4]
    else if name = crisisModuleName then some [5]
    else if name = "bank" then some [6]
    else none
  unmarshalAuth := fun r => if demoFragment 1 r then some ⟨[], []⟩ else none
  marshalAuth := fun s => some [1, s.accounts.length]
  unmarshalStaking := fun r => if demoFragment 2 r then some ⟨⟨1814400, 100, 7, 0, "stake"⟩, []⟩ else none
  marshalStaking := fun s => some [2, s.params.bondDenom.length]
  unmarshalGov := fun r =>
    if demoFragment 3 r then some ⟨1, ⟨[⟨"stake", 10000000⟩, ⟨"atom", 5⟩], 172800⟩, []⟩ else none
  marshalGov := fun s => some [3, s.depositParams.minDeposit.length]
  unmarshalMint := fun r => if demoFragment 4 r then some ⟨[], ⟨"stake", []⟩⟩ else none
  marshalMint := fun s => some [4, s.params.mintDenom.length]
  unmarshalCrisis := fun r => if demoFragment 5 r then some ⟨⟨"stake", 1000⟩⟩ else none
  marshalCrisis := fun s => some [5, s.constantFee.denom.length]
  marshalJSONIndent := fun appGenState => .ok ((appGenState authModuleName).getD [])
  saveAs := fun _ _ _ => none
  genesisDocFromFile := fun _ _ => .ok ⟨0, "draft", [], some [1, 0]⟩
  genAppStateFromConfig := fun i _ _ _ => .ok (some [100 + i])
  exportGenesisFile := fun _ _ _ => none

/-- The surroundings `demoEnv`, except that the derivation of the application state answers
differently for every node but node 0. -/
def otherDerivationEnv : Env :=
  { demoEnv with
    genAppStateFromConfig := fun i _ _ _ => if i = 0 then .ok (some [100]) else .ok (some [7, i]) }

/-- A configuration as `ctx.Config` holds it before the run. -/
def demoConfig : Config :=
  { rootDir := "/home/user/.ethermintd", moniker := "", rpcListenAddress := "tcp://127.0.0.1:26657",
    genesis := "config/genesis.json" }

/-- The arguments of a run: `n` validators, the default flags of the `testnet` command, and the
chain ID and key ring backend given. -/
def demoParams (n : Nat) (chainID keyringBackend : String) : Params :=
  { outputDir := "build", chainID := chainID, minGasPrices := "0.000006aphoton",
    nodeDirPrefix := "node", nodeDaemonHome := "ethermintd", nodeCLIHome := "ethermintcli",
    startingIPAddress := "192.168.0.1", keyringBackend := keyringBackend, numValidators := n }

/-- The surroundings `demoEnv`, except that `keys.NewKeyring` rejects the backend, as it does for
a backend name it does not know. -/
def keyringFailEnv : Env :=
  { demoEnv with newKeyring := fun _ backend _ => .error ("unknown keyring backend " ++ backend) }

/-- The surroundings `demoEnv`, except that signing fails for node 1. -/
def signFailEnv : Env :=
  { demoEnv with
    signStdTx := fun i _ _ _ _ _ _ => if i = 1 then .error "key not found" else .ok [i] }

/-! ### Facts about the address helper -/

theorem calculateIPLoop_a (n : Nat) (ipv4 : IPv4) : (calculateIPLoop n ipv4).a = ipv4.a := by
  induction n generalizing ipv4 with
  | zero => rfl
  | succ n ih => simp [calculateIPLoop, ih]

theorem calculateIPLoop_b (n : Nat) (ipv4 : IPv4) : (calculateIPLoop n ipv4).b = ipv4.b := by
  induction n generalizing ipv4 with
  | zero => rfl
  | succ n ih => simp [calculateIPLoop, ih]

theorem calculateIPLoop_c (n : Nat) (ipv4 : IPv4) : (calculateIPLoop n ipv4).c = ipv4.c := by
  induction n generalizing ipv4 with
  | zero => rfl
  | succ n ih => simp [calculateIPLoop, ih]

theorem calculateIPLoop_d (n : Nat) (ipv4 : IPv4) (h : ipv4.d < 256) :
    (calculateIPLoop n ipv4).d = (ipv4.d + n) % 256 := by
  induction n generalizing ipv4 with
  | zero => simp [calculateIPLoop, Nat.mod_eq_of_lt h]
  | succ n ih =>
    simp only [calculateIPLoop]
    rw [ih _ (Nat.mod_lt _ (by decide))]
    simp only []
    omega

theorem calculateIPLoop_eq (n : Nat) (ipv4 : IPv4) (h : ipv4.d < 256) :
    calculateIPLoop n ipv4 = ⟨ipv4.a, ipv4.b, ipv4.c, (ipv4.d + n) % 256⟩ := by
  have ha := calculateIPLoop_a n ipv4
  have hb := calculateIPLoop_b n ipv4
  have hc := calculateIPLoop_c n ipv4
  have hd := calculateIPLoop_d n ipv4 h
  cases hr : calculateIPLoop n ipv4 with
  | mk a b c d =>
    rw [hr] at ha hb hc hd
    simp only at ha hb hc hd
    subst ha hb hc hd
    rfl

theorem digitChar_inj : ∀ x < 10, ∀ y < 10, digitChar x = digitChar y → x = y := by
  decide

theorem ubtoa_inj (x y : Nat) (hx : x < 256) (hy : y < 256) (h : ubtoa x = ubtoa y) : x = y := by
  unfold ubtoa at h
  split_ifs at h with h1 h2 h3 h4 h5 h6
  · simp only [List.cons.injEq, and_true] at h
    exact digitChar_inj x (by omega) y (by omega) h
  · simp at h
  · simp at h
  · simp at h
  · simp only [List.cons.injEq, and_true] at h
    have e1 := digitChar_inj _ (by omega) _ (by omega) h.1
    have e2 := digitChar_inj _ (by omega) _ (by omega) h.2
    omega
  · simp at h
  · simp at h
  · simp at h
  · simp only [List.cons.injEq, and_true] at h
    have e1 := digitChar_inj _ (by omega) _ (by omega) h.1
    have e2 := digitChar_inj _ (by omega) _ (by omega) h.2.1
    have e3 := digitChar_inj _ (by omega) _ (by omega) h.2.2
    omega

theorem IPv4_String_last_inj (a b c d e : Nat) (hd : d < 256) (he : e < 256)
    (h : IPv4.String ⟨a, b, c, d⟩ = IPv4.String ⟨a, b, c, e⟩) : d = e := by
  have h2 := congrArg String.data h
  simp only [IPv4.String, IPv4.chars, List.append_cancel_left_eq,
    List.cons.injEq, true_and] at h2
  exact ubtoa_inj d e hd he h2

theorem calculateIP_of_parse (parseTo4 : String → Option IPv4) (base : String) (ipv4 : IPv4)
    (i : Nat) (hparse : parseTo4 base = some ipv4) (hd : ipv4.d < 256) :
    calculateIP parseTo4 base (i : Int)
      = (IPv4.String ⟨ipv4.a, ipv4.b, ipv4.c, (ipv4.d + i) % 256⟩, none) := by
  simp [calculateIP, hparse, calculateIPLoop_eq i ipv4 hd]

/-! ## Properties of the address helper -/

/-- C3: when the base parses as the IPv4 address `a.b.c.d` and the index `i` is not negative,
`calculateIP` succeeds with the dotted text of `a.b.c.e`, `e = (d + i) mod 256`: only the last octet
moves, it wraps past 255 and never carries. In particular index 0 on `192.168.0.1` gives
`192.168.0.1` and index 3 gives `192.168.0.4`. -/
theorem calculateIP_last_octet :
    (∀ (parseTo4 : String → Option IPv4) (base : String) (a b c d i : Nat),
        parseTo4 base = some ⟨a, b, c, d⟩ → d < 256 →
        calculateIP parseTo4 base (i : Int)
          = (IPv4.String ⟨a, b, c, (d + i) % 256⟩, none))
    ∧ calculateIP ParseIPTo4 "192.168.0.1" 0 = ("192.168.0.1", none)
    ∧ calculateIP ParseIPTo4 "192.168.0.1" 3 = ("192.168.0.4", none) := by
  refine ⟨?_, by rfl, by rfl⟩
  intro parseTo4 base a b c d i hparse hd
  exact calculateIP_of_parse parseTo4 base ⟨a, b, c, d⟩ i hparse hd

/-- Instance of C3: base `10.0.0.250`, index 7, where the last octet wraps to 1. -/
theorem calculateIP_last_octet_witness :
    ParseIPTo4 "10.0.0.250" = some ⟨10, 0, 0, 250⟩
    ∧ calculateIP ParseIPTo4 "10.0.0.250" ((7 : Nat) : Int) = ("10.0.0.1", none) :=
  ⟨by rfl, calculateIP_last_octet.1 ParseIPTo4 "10.0.0.250" 10 0 0 250 7 (by rfl) (by decide)⟩

/-- C4: `calculateIP` reports an error exactly when the base does not parse as an IPv4 address,
whatever the index; with the error the returned address is the empty text; a base that parses
yields no error for any index. -/
theorem calculateIP_error_iff (parseTo4 : String → Option IPv4) (ip : String) (i : Int) :
    ((calculateIP parseTo4 ip i).2 ≠ none ↔ parseTo4 ip = none)
    ∧ ((calculateIP parseTo4 ip i).2 ≠ none → (calculateIP parseTo4 ip i).1 = "")
    ∧ (parseTo4 ip ≠ none → (calculateIP parseTo4 ip i).2 = none) := by
  unfold calculateIP
  cases h : parseTo4 ip <;> simp

/-- C5 as stated fails: on base `192.168.0.1` the distinct indices 0 and 256 give the same
address. -/
theorem calculateIP_collision :
    ParseIPTo4 "192.168.0.1" = some ⟨192, 168, 0, 1⟩
    ∧ ((0 : Nat) : Int) ≠ ((256 : Nat) : Int)
    ∧ (calculateIP ParseIPTo4 "192.168.0.1" ((0 : Nat) : Int)).1
        = (calculateIP ParseIPTo4 "192.168.0.1" ((256 : Nat) : Int)).1 := by
  refine ⟨by rfl, by decide, ?_⟩
  rw [calculateIP_of_parse ParseIPTo4 "192.168.0.1" ⟨192, 168, 0, 1⟩ 0 (by rfl) (by decide),
    calculateIP_of_parse ParseIPTo4 "192.168.0.1" ⟨192, 168, 0, 1⟩ 256 (by rfl) (by decide)]
  rfl

/-- C5, amended: for a base that parses as an IPv4 address, two indices that are not negative
give the same address exactly when they are congruent modulo 256; so two indices that differ
modulo 256, in particular two distinct indices below 256, give different addresses. -/
theorem calculateIP_eq_iff_mod (parseTo4 : String → Option IPv4) (base : String) (ipv4 : IPv4)
    (i j : Nat) (hparse : parseTo4 base = some ipv4) (hd : ipv4.d < 256) :
    ((calculateIP parseTo4 base (i : Int)).1 = (calculateIP parseTo4 base (j : Int)).1
      ↔ i % 256 = j % 256)
    ∧ (i < 256 → j < 256 → i ≠ j →
        (calculateIP parseTo4 base (i : Int)).1 ≠ (calculateIP parseTo4 base (j : Int)).1) := by
  have key : (calculateIP parseTo4 base (i : Int)).1 = (calculateIP parseTo4 base (j : Int)).1
      ↔ i % 256 = j % 256 := by
    rw [calculateIP_of_parse parseTo4 base ipv4 i hparse hd,
      calculateIP_of_parse parseTo4 base ipv4 j hparse hd]
    constructor
    · intro h
      have := IPv4_String_last_inj _ _ _ _ _ (Nat.mod_lt _ (by decide)) (Nat.mod_lt _ (by decide)) h
      omega
    · intro h
      have : (ipv4.d + i) % 256 = (ipv4.d + j) % 256 := by omega
      simp only [this]
  refine ⟨key, ?_⟩
  intro hi hj hij h
  have := key.mp h
  omega

/-- Instance of the amended C5: base `192.168.0.1`, indices 3 and 200. -/
theorem calculateIP_eq_iff_mod_witness :
    (calculateIP ParseIPTo4 "192.168.0.1" ((3 : Nat) : Int)).1
      ≠ (calculateIP ParseIPTo4 "192.168.0.1" ((200 : Nat) : Int)).1 :=
  (calculateIP_eq_iff_mod ParseIPTo4 "192.168.0.1" ⟨192, 168, 0, 1⟩ 3 200 (by rfl) (by decide)).2
    (by decide) (by decide) (by decide)

/-! ## Facts about runs -/

theorem run_bind_eq {α β : Type} (m : Run α) (f : α → Run β) : (m >>= f) = Run.bind m f := rfl

theorem run_pure_eq {α : Type} (a : α) : (Pure.pure a : Run α) = Run.pure a := rfl

theorem run_eq_iff {α : Type} (m : Run α) (l : List Event) (r : Except Failure α) :
    m = ⟨l, r⟩ ↔ m.log = l ∧ m.result = r := by
  cases m
  simp

theorem run_bind_ok_iff {α β : Type} (m : Run α) (f : α → Run β) (l : List Event) (b : β) :
    Run.bind m f = ⟨l, .ok b⟩ ↔
      ∃ a l1 l2, m = ⟨l1, .ok a⟩ ∧ f a = ⟨l2, .ok b⟩ ∧ l = l1 ++ l2 := by
  obtain ⟨ml, mr⟩ := m
  cases mr with
  | error e => simp [Run.bind]
  | ok a =>
    simp only [Run.bind, Run.mk.injEq]
    constructor
    · rintro ⟨h1, h2⟩
      exact ⟨a, ml, (f a).log, ⟨rfl, rfl⟩, by rw [← h2], h1.symm⟩
    · rintro ⟨a2, l1, l2, ⟨h1, h2⟩, h3, h4⟩
      cases h2
      subst h1
      rw [h3]
      exact ⟨h4.symm, rfl⟩

theorem run_pure_ok_iff {α : Type} (a b : α) (l : List Event) :
    (Run.pure a : Run α) = ⟨l, .ok b⟩ ↔ l = [] ∧ a = b := by
  simp only [Run.pure, Run.mk.injEq, Except.ok.injEq]
  constructor
  · rintro ⟨h1, h2⟩
    exact ⟨h1.symm, h2⟩
  · rintro ⟨h1, h2⟩
    exact ⟨h1.symm, h2⟩

theorem emit_ok_iff (e : Event) (l : List Event) (u : Unit) :
    emit e = ⟨l, .ok u⟩ ↔ l = [e] := by
  simp only [emit, Run.mk.injEq, and_true]
  exact eq_comm

theorem orReturn_ok_iff {α : Type} (r : Except Error α) (a : α) (l : List Event) :
    orReturn r = ⟨l, .ok a⟩ ↔ l = [] ∧ r = .ok a := by
  cases r with
  | error err => simp [orReturn, fail]
  | ok b =>
    simp only [orReturn, run_pure_ok_iff, Except.ok.injEq]

theorem errorOnly_ok_iff (r : Option Error) (u : Unit) : errorOnly r = .ok u ↔ r = none := by
  cases r <;> simp [errorOnly]

theorem valueAndError_ok_iff {α : Type} (r : α × Option Error) (a : α) :
    valueAndError r = .ok a ↔ r.2 = none ∧ r.1 = a := by
  obtain ⟨x, e⟩ := r
  cases e <;> simp [valueAndError]

theorem must_eq_ok {α : Type} (what : String) (r : Option α) (a : α) :
    must what r = .ok a ↔ r = some a := by
  cases r <;> simp [must]

theorem except_bind_eq_ok {ε α β : Type} (x : Except ε α) (f : α → Except ε β) (b : β) :
    (x >>= f) = .ok b ↔ ∃ a, x = .ok a ∧ f a = .ok b := by
  cases x with
  | error e => simp [bind, Except.bind]
  | ok a => simp [bind, Except.bind]

/-! ### The effects of a run, whatever its outcome -/

theorem run_bind_result_ok_iff {α β : Type} (m : Run α) (f : α → Run β) (b : β) :
    (m.bind f).result = .ok b ↔ ∃ a, m.result = .ok a ∧ (f a).result = .ok b := by
  obtain ⟨ml, mr⟩ := m
  cases mr <;> simp [Run.bind]

theorem mem_bind_log {α β : Type} (m : Run α) (f : α → Run β) (e : Event) :
    e ∈ (m.bind f).log ↔ e ∈ m.log ∨ ∃ a, m.result = .ok a ∧ e ∈ (f a).log := by
  obtain ⟨ml, mr⟩ := m
  cases mr <;> simp [Run.bind]

theorem mem_pure_log {α : Type} (a : α) (e : Event) : e ∈ (Run.pure a).log ↔ False := by
  simp [Run.pure]

theorem pure_result {α : Type} (a : α) : (Run.pure a).result = .ok a := rfl

theorem mem_emit_log (e0 e : Event) : e ∈ (emit e0).log ↔ e = e0 := by
  simp [emit]

theorem emit_result (e0 : Event) (u : Unit) : (emit e0).result = .ok u ↔ True := by
  simp [emit]

theorem mem_orReturn_log {α : Type} (r : Except Error α) (e : Event) :
    e ∈ (orReturn r).log ↔ False := by
  cases r <;> simp [orReturn, fail, Run.pure]

theorem orReturn_result {α : Type} (r : Except Error α) (a : α) :
    (orReturn r).result = .ok a ↔ r = .ok a := by
  cases r <;> simp [orReturn, fail, Run.pure]

theorem mem_orRollback_log {α : Type} (d : String) (r : Except Error α) (e : Event) :
    e ∈ (orRollback d r).log ↔ e = .removeAll d ∧ ∃ err, r = .error err := by
  cases r <;> simp [orRollback, rollback, Run.pure]

theorem orRollback_result {α : Type} (d : String) (r : Except Error α) (a : α) :
    (orRollback d r).result = .ok a ↔ r = .ok a := by
  cases r <;> simp [orRollback, rollback, Run.pure]

theorem mem_ofExcept_log {α : Type} (r : Except Failure α) (e : Event) :
    e ∈ (Run.ofExcept r).log ↔ False := by
  simp [Run.ofExcept]

theorem ofExcept_result {α : Type} (r : Except Failure α) : (Run.ofExcept r).result = r := rfl

theorem mem_onError_rollback_log {α : Type} (m : Run α) (d : String) (e : Event) :
    e ∈ (m.onError (fun err => rollback d err)).log ↔
      e ∈ m.log ∨ (e = .removeAll d ∧ ∃ err, m.result = .error (.error err)) := by
  obtain ⟨ml, mr⟩ := m
  cases mr with
  | error f => cases f <;> simp [Run.onError, rollback]
  | ok a => simp [Run.onError]

theorem onError_rollback_result {α : Type} (m : Run α) (d : String) (a : α) :
    (m.onError (fun err => rollback d err)).result = .ok a ↔ m.result = .ok a := by
  obtain ⟨ml, mr⟩ := m
  cases mr with
  | error f => cases f <;> simp [Run.onError, rollback]
  | ok a => simp [Run.onError]

/-! ## The genesis collector -/

theorem collectGenFilesLoop_ok (env : Env) (config : Config) (chainID : String)
    (nodeIDs : Nat → String) (valPubKeys : Nat → PubKey)
    (outputDir nodeDirPrefix nodeDaemonHome : String) :
    ∀ (k i : Nat) (c : Config) (log : List Event),
      c.rpcListenAddress = config.rpcListenAddress → c.genesis = config.genesis →
      collectGenFilesLoop env chainID nodeIDs valPubKeys outputDir nodeDirPrefix nodeDaemonHome
        env.now k i c
        (firstNonNil (derivedAppState env config chainID nodeIDs valPubKeys outputDir
          nodeDirPrefix nodeDaemonHome) i) = ⟨log, .ok ()⟩ →
      (∀ j, i ≤ j → j < i + k → ∃ r, nodeAppState env config chainID nodeIDs valPubKeys
          outputDir nodeDirPrefix nodeDaemonHome j = .ok r)
      ∧ log = (List.range' i k).map (fun j =>
          Event.genesisExported j
            (collectConfig config outputDir nodeDirPrefix nodeDaemonHome j).GenesisFile
            (collectedDoc env chainID
              (firstNonNil (derivedAppState env config chainID nodeIDs valPubKeys outputDir
                nodeDirPrefix nodeDaemonHome) (j + 1)))) := by
  intro k
  induction k with
  | zero =>
    intro i c log _ _ h
    simp only [collectGenFilesLoop, run_pure_eq, Run.pure, Run.mk.injEq] at h
    refine ⟨fun j h1 h2 => by omega, ?_⟩
    simp [h.1.symm]
  | succ k ih =>
    intro i c log hrpc hgen h
    have hcfg : ({ c with moniker := nodeDirPrefix ++ toString i } : Config).SetRoot
        (filepathJoin [outputDir, nodeDirPrefix ++ toString i, nodeDaemonHome])
        = collectConfig config outputDir nodeDirPrefix nodeDaemonHome i := by
      simp [collectConfig, Config.SetRoot, hrpc, hgen]
    simp only [collectGenFilesLoop, ExportGenesisFileWithTime, run_bind_eq] at h
    rw [hcfg] at h
    simp only [run_bind_ok_iff, orReturn_ok_iff, emit_ok_iff, errorOnly_ok_iff] at h
    obtain ⟨genDoc, l1, l2, ⟨hl1, hdoc⟩, ⟨nodeApp, l3, l4, ⟨hl3, hst⟩,
      ⟨u, l5, l6, ⟨u2, l7, l8, ⟨hl7, hexp⟩, hl8, hl5⟩, hl6, hl4⟩, hl2⟩, hlog⟩ := h
    have hN : nodeAppState env config chainID nodeIDs valPubKeys outputDir nodeDirPrefix
        nodeDaemonHome i = .ok nodeApp := by
      simp only [nodeAppState, hdoc, hst]
    have hD : derivedAppState env config chainID nodeIDs valPubKeys outputDir nodeDirPrefix
        nodeDaemonHome i = nodeApp := by
      simp only [derivedAppState, hN]
    have hnext : (if firstNonNil (derivedAppState env config chainID nodeIDs valPubKeys
          outputDir nodeDirPrefix nodeDaemonHome) i = none then nodeApp
        else firstNonNil (derivedAppState env config chainID nodeIDs valPubKeys
          outputDir nodeDirPrefix nodeDaemonHome) i)
        = firstNonNil (derivedAppState env config chainID nodeIDs valPubKeys
          outputDir nodeDirPrefix nodeDaemonHome) (i + 1) := by
      simp only [firstNonNil, hD]
    rw [hnext] at hl6
    have hrec := ih (i + 1) (collectConfig config outputDir nodeDirPrefix nodeDaemonHome i)
      l6 (by simp [collectConfig, Config.SetRoot])
      (by simp [collectConfig, Config.SetRoot]) hl6
    refine ⟨?_, ?_⟩
    · intro j hj1 hj2
      by_cases hji : j = i
      · subst hji
        exact ⟨nodeApp, hN⟩
      · exact hrec.1 j (by omega) (by omega)
    · rw [hlog, hl1, hl2, hl3, hl4, hl5, hl7, hl8, hrec.2, hnext]
      simp [List.range'_succ, collectedDoc]

theorem collectGenFiles_ok (env : Env) (config : Config) (chainID : String)
    (nodeIDs : Nat → String) (valPubKeys : Nat → PubKey) (numValidators : Nat)
    (outputDir nodeDirPrefix nodeDaemonHome : String) (log : List Event)
    (hrun : collectGenFiles env config chainID nodeIDs valPubKeys numValidators outputDir
      nodeDirPrefix nodeDaemonHome = ⟨log, .ok ()⟩) :
    (∀ j, j < numValidators → ∃ r, nodeAppState env config chainID nodeIDs valPubKeys
        outputDir nodeDirPrefix nodeDaemonHome j = .ok r)
    ∧ log = (List.range numValidators).map (fun j =>
        Event.genesisExported j
          (collectConfig config outputDir nodeDirPrefix nodeDaemonHome j).GenesisFile
          (collectedDoc env chainID
            (firstNonNil (derivedAppState env config chainID nodeIDs valPubKeys outputDir
              nodeDirPrefix nodeDaemonHome) (j + 1)))) := by
  have h := collectGenFilesLoop_ok env config chainID nodeIDs valPubKeys outputDir nodeDirPrefix
    nodeDaemonHome numValidators 0 config log rfl rfl hrun
  refine ⟨fun j hj => h.1 j (Nat.zero_le j) (by omega), ?_⟩
  rw [h.2, List.range_eq_range']

theorem firstNonNil_of_first (derived : Nat → RawMessage) (h : derived 0 ≠ none) (n : Nat) :
    firstNonNil derived (n + 1) = derived 0 := by
  induction n with
  | zero => simp [firstNonNil]
  | succ n ih =>
    rw [firstNonNil, ih]
    simp [h]

theorem demoEnv_never_nil : DerivationNeverNil demoEnv := by
  intro i config initCfg genDoc h
  cases h

theorem otherDerivationEnv_never_nil : DerivationNeverNil otherDerivationEnv := by
  intro i config initCfg genDoc h
  by_cases hi : i = 0
  · simp [otherDerivationEnv, hi] at h
  · simp [otherDerivationEnv, hi] at h

theorem collectGenFiles_canonical_log (env : Env) (config : Config) (chainID : String)
    (nodeIDs : Nat → String) (valPubKeys : Nat → PubKey) (numValidators : Nat)
    (outputDir nodeDirPrefix nodeDaemonHome : String) (log : List Event)
    (hN : 1 ≤ numValidators) (hlib : DerivationNeverNil env)
    (hrun : collectGenFiles env config chainID nodeIDs valPubKeys numValidators outputDir
      nodeDirPrefix nodeDaemonHome = ⟨log, .ok ()⟩) :
    ∃ appState : Bytes,
      nodeAppState env config chainID nodeIDs valPubKeys outputDir nodeDirPrefix
        nodeDaemonHome 0 = .ok (some appState)
      ∧ log = (List.range numValidators).map (fun i =>
          Event.genesisExported i
            (collectConfig config outputDir nodeDirPrefix nodeDaemonHome i).GenesisFile
            { genesisTime := env.now, chainID := chainID, validators := [],
              appState := some appState }) := by
  obtain ⟨hall, hlog⟩ := collectGenFiles_ok env config chainID nodeIDs valPubKeys numValidators
    outputDir nodeDirPrefix nodeDaemonHome log hrun
  obtain ⟨r, hr⟩ := hall 0 (by omega)
  cases r with
  | none =>
    exfalso
    unfold nodeAppState at hr
    cases hdoc : env.genesisDocFromFile 0
        (collectConfig config outputDir nodeDirPrefix nodeDaemonHome 0).GenesisFile with
    | error err =>
      rw [hdoc] at hr
      cases hr
    | ok genDoc =>
      rw [hdoc] at hr
      exact hlib _ _ _ _ hr
  | some appState =>
    refine ⟨appState, hr, ?_⟩
    have hD : derivedAppState env config chainID nodeIDs valPubKeys outputDir nodeDirPrefix
        nodeDaemonHome 0 = some appState := by
      simp [derivedAppState, hr]
    rw [hlog]
    apply List.map_congr_left
    intro i _
    rw [firstNonNil_of_first _ (by rw [hD]; simp) i, hD]
    rfl

/-- C1: for every validator count `N >= 1` and every behaviour of the derivation of the
application state within the contract of the library (it may answer with a different state for
each node), a run of `collectGenFiles` that returns without error wrote `N` genesis documents, one
for each node in index order, and all of them carry the same application state, the same genesis
time and the same chain ID, which is the chain ID passed in. -/
theorem collectGenFiles_same_genesis (env : Env) (config : Config) (chainID : String)
    (nodeIDs : Nat → String) (valPubKeys : Nat → PubKey) (numValidators : Nat)
    (outputDir nodeDirPrefix nodeDaemonHome : String) (log : List Event)
    (hN : 1 ≤ numValidators) (hlib : DerivationNeverNil env)
    (hrun : collectGenFiles env config chainID nodeIDs valPubKeys numValidators outputDir
      nodeDirPrefix nodeDaemonHome = ⟨log, .ok ()⟩) :
    ∃ (appState : RawMessage) (genTime : Nat),
      log.length = numValidators
      ∧ ∀ i, i < numValidators →
          log[i]? = some (Event.genesisExported i
            (collectConfig config outputDir nodeDirPrefix nodeDaemonHome i).GenesisFile
            { genesisTime := genTime, chainID := chainID, validators := [],
              appState := appState }) := by
  obtain ⟨appState, -, hlog⟩ := collectGenFiles_canonical_log env config chainID nodeIDs
    valPubKeys numValidators outputDir nodeDirPrefix nodeDaemonHome log hN hlib hrun
  refine ⟨some appState, env.now, ?_, ?_⟩
  · rw [hlog]
    simp
  · intro i hi
    rw [hlog]
    simp [hi]

/-- Instance of C1: three nodes, every library call succeeding and the derivation answering with a
different state for each node. -/
theorem collectGenFiles_same_genesis_witness :
    ∃ (appState : RawMessage) (genTime : Nat),
      (collectGenFiles demoEnv demoConfig "testnet-1" (fun i => "id" ++ toString i)
          (fun i => [i]) 3 "build" "node" "ethermintd").log.length = 3
      ∧ ∀ i, i < 3 →
          (collectGenFiles demoEnv demoConfig "testnet-1" (fun i => "id" ++ toString i)
            (fun i => [i]) 3 "build" "node" "ethermintd").log[i]?
          = some (Event.genesisExported i
            (collectConfig demoConfig "build" "node" "ethermintd" i).GenesisFile
            { genesisTime := genTime, chainID := "testnet-1", validators := [],
              appState := appState }) :=
  collectGenFiles_same_genesis demoEnv demoConfig "testnet-1" (fun i => "id" ++ toString i)
    (fun i => [i]) 3 "build" "node" "ethermintd" _ (by decide) demoEnv_never_nil (by rfl)

/-- C9: the first node processed establishes the canonical application state. For every validator
count `N >= 1` and every behaviour of the derivation within the contract of the library, on a run
of `collectGenFiles` that returns without error the derivation for node 0 answered with a state,
and the document written for every node `i < N` carries exactly that state. What is derived for a
later node has no influence: a second successful run in surroundings that agree with the first on
the clock and on the derivation for node 0, and are arbitrary otherwise, writes the same documents
to the same files. -/
theorem collectGenFiles_canonical (env : Env) (config : Config) (chainID : String)
    (nodeIDs : Nat → String) (valPubKeys : Nat → PubKey) (numValidators : Nat)
    (outputDir nodeDirPrefix nodeDaemonHome : String) (log : List Event)
    (hN : 1 ≤ numValidators) (hlib : DerivationNeverNil env)
    (hrun : collectGenFiles env config chainID nodeIDs valPubKeys numValidators outputDir
      nodeDirPrefix nodeDaemonHome = ⟨log, .ok ()⟩) :
    nodeAppState env config chainID nodeIDs valPubKeys outputDir nodeDirPrefix nodeDaemonHome 0
      = .ok (derivedAppState env config chainID nodeIDs valPubKeys outputDir nodeDirPrefix
          nodeDaemonHome 0)
    ∧ derivedAppState env config chainID nodeIDs valPubKeys outputDir nodeDirPrefix
        nodeDaemonHome 0 ≠ none
    ∧ log = (List.range numValidators).map (fun i =>
        Event.genesisExported i
          (collectConfig config outputDir nodeDirPrefix nodeDaemonHome i).GenesisFile
          { genesisTime := env.now, chainID := chainID, validators := [],
            appState := derivedAppState env config chainID nodeIDs valPubKeys outputDir
              nodeDirPrefix nodeDaemonHome 0 })
    ∧ ∀ (env2 : Env) (log2 : List Event), env2.now = env.now → DerivationNeverNil env2 →
        nodeAppState env2 config chainID nodeIDs valPubKeys outputDir nodeDirPrefix
            nodeDaemonHome 0
          = nodeAppState env config chainID nodeIDs valPubKeys outputDir nodeDirPrefix
            nodeDaemonHome 0 →
        collectGenFiles env2 config chainID nodeIDs valPubKeys numValidators outputDir
          nodeDirPrefix nodeDaemonHome = ⟨log2, .ok ()⟩ →
        log2 = log := by
  obtain ⟨appState, hr, hlog⟩ := collectGenFiles_canonical_log env config chainID nodeIDs
    valPubKeys numValidators outputDir nodeDirPrefix nodeDaemonHome log hN hlib hrun
  have hD : derivedAppState env config chainID nodeIDs valPubKeys outputDir nodeDirPrefix
      nodeDaemonHome 0 = some appState := by
    simp [derivedAppState, hr]
  refine ⟨by rw [hD, hr], by rw [hD]; simp, by rw [hD, hlog], ?_⟩
  intro env2 log2 hnow hlib2 hsame hrun2
  obtain ⟨appState2, hr2, hlog2⟩ := collectGenFiles_canonical_log env2 config chainID nodeIDs
    valPubKeys numValidators outputDir nodeDirPrefix nodeDaemonHome log2 hN hlib2 hrun2
  rw [hsame, hr] at hr2
  simp only [Except.ok.injEq, Option.some.injEq] at hr2
  rw [hlog, hlog2, hnow, hr2]

/-- Instance of C9: two nodes; a run in which the derivation answers `[100]` for node 0 and
`[101]` for node 1, and a run in which it answers `[100]` for node 0 and `[7, 1]` for node 1, write
the same documents, which carry `[100]`. -/
theorem collectGenFiles_canonical_witness :
    (collectGenFiles demoEnv demoConfig "testnet-1" (fun i => "id" ++ toString i)
        (fun i => [i]) 2 "build" "node" "ethermintd").log
      = [.genesisExported 0 "build/node0/ethermintd/config/genesis.json"
            ⟨1600000000, "testnet-1", [], some [100]⟩,
          .genesisExported 1 "build/node1/ethermintd/config/genesis.json"
            ⟨1600000000, "testnet-1", [], some [100]⟩]
    ∧ nodeAppState demoEnv demoConfig "testnet-1" (fun i => "id" ++ toString i) (fun i => [i])
        "build" "node" "ethermintd" 1 = .ok (some [101])
    ∧ nodeAppState otherDerivationEnv demoConfig "testnet-1" (fun i => "id" ++ toString i)
        (fun i => [i]) "build" "node" "ethermintd" 1 = .ok (some [7, 1])
    ∧ (collectGenFiles otherDerivationEnv demoConfig "testnet-1" (fun i => "id" ++ toString i)
        (fun i => [i]) 2 "build" "node" "ethermintd").log
      = (collectGenFiles demoEnv demoConfig "testnet-1" (fun i => "id" ++ toString i)
        (fun i => [i]) 2 "build" "node" "ethermintd").log :=
  ⟨(collectGenFiles_canonical demoEnv demoConfig "testnet-1" (fun i => "id" ++ toString i)
      (fun i => [i]) 2 "build" "node" "ethermintd" _ (by decide) demoEnv_never_nil (by rfl)).2.2.1,
    by rfl, by rfl,
    (collectGenFiles_canonical demoEnv demoConfig "testnet-1" (fun i => "id" ++ toString i)
      (fun i => [i]) 2 "build" "node" "ethermintd" _ (by decide) demoEnv_never_nil (by rfl)).2.2.2
      otherDerivationEnv _ (by rfl) otherDerivationEnv_never_nil (by rfl) (by rfl)⟩

/-! ## The genesis assembler -/

theorem initGenFilesAppGenState_ok (env : Env) (genAccounts : List EthAccount)
    (st : GenesisState) (hrun : initGenFilesAppGenState env genAccounts = .ok st) :
    ∃ a s g m c coin rest aj sj gj mj cj,
      env.unmarshalAuth (env.defaultGenesis authModuleName) = some a
      ∧ env.unmarshalStaking (env.defaultGenesis stakingModuleName) = some s
      ∧ env.unmarshalGov (env.defaultGenesis govModuleName) = some g
      ∧ env.unmarshalMint (env.defaultGenesis mintModuleName) = some m
      ∧ env.unmarshalCrisis (env.defaultGenesis crisisModuleName) = some c
      ∧ g.depositParams.minDeposit = coin :: rest
      ∧ env.marshalAuth ⟨a.params, genAccounts⟩ = some aj
      ∧ env.marshalStaking
          ⟨⟨s.params.unbondingTime, s.params.maxValidators, s.params.maxEntries,
            s.params.historicalEntries, env.denomDefault⟩, s.others⟩ = some sj
      ∧ env.marshalGov
          ⟨g.startingProposalID,
            ⟨⟨env.denomDefault, coin.amount⟩ :: rest, g.depositParams.maxDepositPeriod⟩,
            g.others⟩ = some gj
      ∧ env.marshalMint ⟨m.minter, ⟨env.denomDefault, m.params.others⟩⟩ = some mj
      ∧ env.marshalCrisis ⟨⟨env.denomDefault, c.constantFee.amount⟩⟩ = some cj
      ∧ st = Function.update (Function.update (Function.update (Function.update
          (Function.update env.defaultGenesis authModuleName (some aj))
          stakingModuleName (some sj)) govModuleName (some gj)) mintModuleName (some mj))
          crisisModuleName (some cj) := by
  unfold initGenFilesAppGenState at hrun
  simp only [except_bind_eq_ok, must_eq_ok] at hrun
  obtain ⟨a, ha, aj, haj, s, hs, sj, hsj, g, hg, hrest⟩ := hrun
  cases hdep : g.depositParams.minDeposit with
  | nil =>
    rw [hdep] at hrest
    simp [bind, Except.bind] at hrest
  | cons coin rest =>
    rw [hdep] at hrest
    simp only [except_bind_eq_ok, must_eq_ok, Except.ok.injEq, exists_eq_left'] at hrest
    obtain ⟨gj, hgj, m, hm, mj, hmj, c, hc, cj, hcj, hst⟩ := hrest
    have n1 : stakingModuleName ≠ authModuleName := by decide
    have n2 : govModuleName ≠ authModuleName := by decide
    have n3 : govModuleName ≠ stakingModuleName := by decide
    have n4 : mintModuleName ≠ authModuleName := by decide
    have n5 : mintModuleName ≠ stakingModuleName := by decide
    have n6 : mintModuleName ≠ govModuleName := by decide
    have n7 : crisisModuleName ≠ authModuleName := by decide
    have n8 : crisisModuleName ≠ stakingModuleName := by decide
    have n9 : crisisModuleName ≠ govModuleName := by decide
    have n10 : crisisModuleName ≠ mintModuleName := by decide
    simp only [Function.update_noteq n1, Function.update_noteq n2, Function.update_noteq n3,
      Function.update_noteq n4, Function.update_noteq n5, Function.update_noteq n6,
      Function.update_noteq n7, Function.update_noteq n8, Function.update_noteq n9,
      Function.update_noteq n10] at hs hg hm hc
    refine ⟨a, s, g, m, c, coin, rest, aj, sj, gj, mj, cj, ha, hs, hg, hm, hc, hdep, haj, hsj,
      hgj, hmj, hcj, ?_⟩
    simpa [pure, Except.pure] using hst.symm

/-- C6: for every account list and every default genesis whose auth, staking, gov, mint and crisis
fragments decode (to `a`, `s`, `g`, `m`, `c`), with a governance minimum deposit `coin :: rest`
that is not empty, `initGenFiles` assembles the default genesis with exactly these overwrites:
the auth fragment is re-encoded with the given account list in place of its accounts (same
order, same length, nothing dropped), the staking fragment with the native denomination as bond
denomination, the gov fragment with the native denomination on the first coin of the minimum
deposit, the mint fragment with the native denomination as mint denomination, the crisis fragment
with the native denomination on the constant fee; every other field of these five states is the
default one, and the fragment of every other module is left as it is. -/
theorem initGenFiles_overwrites (env : Env) (genAccounts : List EthAccount)
    (a : AuthGenesisState) (s : StakingGenesisState) (g : GovGenesisState)
    (m : MintGenesisState) (c : CrisisGenesisState) (coin : Coin) (rest : List Coin)
    (aj sj gj mj cj : Bytes)
    (ha : env.unmarshalAuth (env.defaultGenesis authModuleName) = some a)
    (hs : env.unmarshalStaking (env.defaultGenesis stakingModuleName) = some s)
    (hg : env.unmarshalGov (env.defaultGenesis govModuleName) = some g)
    (hm : env.unmarshalMint (env.defaultGenesis mintModuleName) = some m)
    (hc : env.unmarshalCrisis (env.defaultGenesis crisisModuleName) = some c)
    (hdep : g.depositParams.minDeposit = coin :: rest)
    (haj : env.marshalAuth { params := a.params, accounts := genAccounts } = some aj)
    (hsj : env.marshalStaking
      { params :=
          { unbondingTime := s.params.unbondingTime, maxValidators := s.params.maxValidators,
            maxEntries := s.params.maxEntries, historicalEntries := s.params.historicalEntries,
            bondDenom := env.denomDefault },
        others := s.others } = some sj)
    (hgj : env.marshalGov
      { startingProposalID := g.startingProposalID,
        depositParams :=
          { minDeposit := { denom := env.denomDefault, amount := coin.amount } :: rest,
            maxDepositPeriod := g.depositParams.maxDepositPeriod },
        others := g.others } = some gj)
    (hmj : env.marshalMint
      { minter := m.minter,
        params := { mintDenom := env.denomDefault, others := m.params.others } } = some mj)
    (hcj : env.marshalCrisis
      { constantFee := { denom := env.denomDefault, amount := c.constantFee.amount } } = some cj) :
    ∃ st : GenesisState,
      initGenFilesAppGenState env genAccounts = .ok st
      ∧ st authModuleName = some aj
      ∧ st stakingModuleName = some sj
      ∧ st govModuleName = some gj
      ∧ st mintModuleName = some mj
      ∧ st crisisModuleName = some cj
      ∧ ∀ name, name ≠ authModuleName → name ≠ stakingModuleName → name ≠ govModuleName →
          name ≠ mintModuleName → name ≠ crisisModuleName → st name = env.defaultGenesis name := by
  have n1 : stakingModuleName ≠ authModuleName := by decide
  have n2 : govModuleName ≠ authModuleName := by decide
  have n3 : govModuleName ≠ stakingModuleName := by decide
  have n4 : mintModuleName ≠ authModuleName := by decide
  have n5 : mintModuleName ≠ stakingModuleName := by decide
  have n6 : mintModuleName ≠ govModuleName := by decide
  have n7 : crisisModuleName ≠ authModuleName := by decide
  have n8 : crisisModuleName ≠ stakingModuleName := by decide
  have n9 : crisisModuleName ≠ govModuleName := by decide
  have n10 : crisisModuleName ≠ mintModuleName := by decide
  refine ⟨Function.update (Function.update (Function.update (Function.update
      (Function.update env.defaultGenesis authModuleName (some aj))
      stakingModuleName (some sj)) govModuleName (some gj)) mintModuleName (some mj))
      crisisModuleName (some cj), ?_, ?_, ?_, ?_, ?_, ?_, ?_⟩
  · unfold initGenFilesAppGenState
    simp only [ha, haj, must, bind, Except.bind, Function.update_noteq n1, hs, hsj,
      Function.update_noteq n2, Function.update_noteq n3, hg, hdep, hgj,
      Function.update_noteq n4, Function.update_noteq n5, Function.update_noteq n6, hm, hmj,
      Function.update_noteq n7, Function.update_noteq n8, Function.update_noteq n9,
      Function.update_noteq n10, hc, hcj, pure, Except.pure]
  · simp [Function.update_noteq n1.symm, Function.update_noteq n2.symm,
      Function.update_noteq n4.symm, Function.update_noteq n7.symm]
  · simp [Function.update_noteq n3.symm, Function.update_noteq n5.symm,
      Function.update_noteq n8.symm]
  · simp [Function.update_noteq n6.symm, Function.update_noteq n9.symm]
  · simp [Function.update_noteq n10.symm]
  · simp
  · intro name h1 h2 h3 h4 h5
    simp [Function.update_noteq h1, Function.update_noteq h2, Function.update_noteq h3,
      Function.update_noteq h4, Function.update_noteq h5]

/-- Instance of C6: one account and the default genesis of `demoEnv`, whose minimum deposit has
two coins; the fragment of the `bank` module is left as it is. -/
theorem initGenFiles_overwrites_witness :
    ∃ st : GenesisState,
      initGenFilesAppGenState demoEnv [⟨⟨[7], [], none, 0, 0⟩, [197, 210]⟩] = .ok st
      ∧ st authModuleName = some [1, 1]
      ∧ st stakingModuleName = some [2, 7]
      ∧ st govModuleName = some [3, 2]
      ∧ st mintModuleName = some [4, 7]
      ∧ st crisisModuleName = some [5, 7]
      ∧ ∀ name, name ≠ authModuleName → name ≠ stakingModuleName → name ≠ govModuleName →
          name ≠ mintModuleName → name ≠ crisisModuleName →
          st name = demoEnv.defaultGenesis name :=
  initGenFiles_overwrites demoEnv [⟨⟨[7], [], none, 0, 0⟩, [197, 210]⟩]
    ⟨[], []⟩ ⟨⟨1814400, 100, 7, 0, "stake"⟩, []⟩
    ⟨1, ⟨[⟨"stake", 10000000⟩, ⟨"atom", 5⟩], 172800⟩, []⟩ ⟨[], ⟨"stake", []⟩⟩ ⟨⟨"stake", 1000⟩⟩
    ⟨"stake", 10000000⟩ [⟨"atom", 5⟩] [1, 1] [2, 7] [3, 2] [4, 7] [5, 7]
    (by rfl) (by rfl) (by rfl) (by rfl) (by rfl) (by rfl) (by rfl) (by rfl) (by rfl) (by rfl)
    (by rfl)

/-! ## The orchestrator -/

theorem NewCoin_ok_iff (denom : String) (amount : Int) (coin : Coin) :
    NewCoin denom amount = .ok coin ↔ 0 ≤ amount ∧ coin = ⟨denom, amount⟩ := by
  unfold NewCoin
  split_ifs with h
  · simp
    omega
  · simp only [Except.ok.injEq]
    constructor
    · intro h2
      exact ⟨by omega, h2.symm⟩
    · intro h2
      exact h2.2.symm

theorem signed_mem_initNode (env : Env) (p : Params) (c : String) (i : Nat) (st : LoopState)
    (j : Nat) (name c2 : String) (tx : StdTx)
    (h : Event.signed j name c2 tx ∈ (initNode env p c i st).log) :
    j = i ∧ name = p.nodeDirPrefix ++ toString i ∧ c2 = c
    ∧ ∃ v, GeneratedNode env p st.config i v ∧ tx = joinTx env p i v := by
  simp only [initNode, writeFile, run_bind_eq, run_pure_eq, mem_bind_log, run_bind_result_ok_iff,
    mem_pure_log, pure_result, mem_emit_log, emit_result, mem_orReturn_log, orReturn_result,
    mem_orRollback_log, orRollback_result, mem_ofExcept_log, ofExcept_result,
    mem_onError_rollback_log, onError_rollback_result, errorOnly_ok_iff, valueAndError_ok_iff,
    false_or, or_false, false_and, and_false, exists_false, reduceCtorEq, true_and, and_true,
    exists_const, NewCoin_ok_iff, Function.update_same, Event.signed.injEq] at h
  obtain ⟨-, -, ip, ⟨hip2, hip1⟩, ⟨id, pk⟩, hnode, kb, hkb, ⟨addr, secret⟩, hkey, cli, -, -,
    coin1, ⟨hpos1, hcoin1⟩, coin2, ⟨hpos2, hcoin2⟩, coins, hcoins, self, ⟨hpos3, hself⟩, sig, -,
    hj, hname, hc, htx⟩ := h
  subst hcoin1 hcoin2 hself
  refine ⟨hj, hname, hc, ⟨ip, id, pk, kb, addr, secret, coins⟩, ?_, htx⟩
  refine ⟨?_, hnode, hkb, hkey, ?_, hcoins⟩
  · rw [← hip1]
    exact Prod.ext rfl hip2
  · simp only [TokensFromConsensusPower] at hpos3
    omega

theorem initNode_ok (env : Env) (p : Params) (c : String) (i : Nat) (st st2 : LoopState)
    (log : List Event) (h : initNode env p c i st = ⟨log, .ok st2⟩) :
    ∃ v, GeneratedNode env p st.config i v
      ∧ Event.signed i (p.nodeDirPrefix ++ toString i) c (joinTx env p i v) ∈ log
      ∧ st2 = { config := initNodeConfig st.config p i
                nodeIDs := Function.update st.nodeIDs i v.nodeID
                valPubKeys := Function.update st.valPubKeys i v.valPubKey
                genAccounts := st.genAccounts ++ [nodeAccount env v]
                genFiles := st.genFiles ++ [(initNodeConfig st.config p i).GenesisFile] } := by
  have hres : (initNode env p c i st).result = .ok st2 := by rw [h]
  have hlog : log = (initNode env p c i st).log := by rw [h]
  simp only [initNode, writeFile, run_bind_eq, run_pure_eq, run_bind_result_ok_iff,
    pure_result, emit_result, orReturn_result, orRollback_result, ofExcept_result,
    onError_rollback_result, errorOnly_ok_iff, valueAndError_ok_iff,
    true_and, and_true, exists_const, NewCoin_ok_iff, Function.update_same,
    Except.ok.injEq] at hres
  obtain ⟨hmk1, hmk2, ip, ⟨hip2, hip1⟩, ⟨id, pk⟩, hnode, kb, hkb, ⟨addr, secret⟩, hkey, cli, hcli,
    ⟨hens1, hwr1⟩, coin1, ⟨hpos1, hcoin1⟩, coin2, ⟨hpos2, hcoin2⟩, coins, hcoins, self,
    ⟨hpos3, hself⟩, sig, hsig, txBytes, htxb, ⟨hens2, hwr2⟩, hst⟩ := hres
  subst hcoin1 hcoin2 hself
  have hgen : GeneratedNode env p st.config i ⟨ip, id, pk, kb, addr, secret, coins⟩ := by
    refine ⟨?_, hnode, hkb, hkey, ?_, hcoins⟩
    · rw [← hip1]
      exact Prod.ext rfl hip2
    · simp only [TokensFromConsensusPower] at hpos3
      omega
  refine ⟨⟨ip, id, pk, kb, addr, secret, coins⟩, hgen, ?_, hst.symm⟩
  rw [hlog]
  simp only [initNode, writeFile, run_bind_eq, run_pure_eq, mem_bind_log, run_bind_result_ok_iff,
    mem_pure_log, pure_result, mem_emit_log, emit_result, mem_orReturn_log, orReturn_result,
    mem_orRollback_log, orRollback_result, mem_ofExcept_log, ofExcept_result,
    mem_onError_rollback_log, onError_rollback_result, errorOnly_ok_iff, valueAndError_ok_iff,
    false_or, or_false, false_and, and_false, exists_false, reduceCtorEq, true_and, and_true,
    exists_const, NewCoin_ok_iff, Function.update_same, Event.signed.injEq]
  exact ⟨hmk1, hmk2, ip, ⟨hip2, hip1⟩, ⟨id, pk⟩, hnode, kb, hkb, ⟨addr, secret⟩, hkey, cli, hcli,
    ⟨hens1, hwr1⟩, _, ⟨hpos1, rfl⟩, _, ⟨hpos2, rfl⟩, coins, hcoins, _, ⟨hpos3, rfl⟩, sig, hsig,
    rfl⟩

theorem initNodeConfig_congr (config config2 : Config) (p : Params) (i : Nat)
    (h : config.genesis = config2.genesis) : initNodeConfig config p i = initNodeConfig config2 p i := by
  simp [initNodeConfig, h]

theorem GeneratedNode_congr (env : Env) (p : Params) (config config2 : Config) (i : Nat)
    (v : NodeValues) (h : config.genesis = config2.genesis)
    (hv : GeneratedNode env p config i v) : GeneratedNode env p config2 i v := by
  unfold GeneratedNode at hv ⊢
  rw [← initNodeConfig_congr config config2 p i h]
  exact hv

theorem initNode_chainID (env : Env) (p : Params) (c : String) (i : Nat) (st : LoopState)
    (e : Event) (he : e ∈ (initNode env p c i st).log) (c2 : String)
    (hc : eventChainID e = some c2) : c2 = c := by
  cases e with
  | signed j name c3 tx =>
    simp only [eventChainID, Option.some.injEq] at hc
    rw [← hc]
    exact (signed_mem_initNode env p c i st j name c3 tx he).2.2.1
  | genesisSaved j path doc =>
    simp only [initNode, writeFile, run_bind_eq, run_pure_eq, mem_bind_log,
      run_bind_result_ok_iff, mem_pure_log, pure_result, mem_emit_log, emit_result,
      mem_orReturn_log, orReturn_result, mem_orRollback_log, orRollback_result, mem_ofExcept_log,
      ofExcept_result, mem_onError_rollback_log, onError_rollback_result, errorOnly_ok_iff,
      valueAndError_ok_iff, false_or, or_false, false_and, and_false, exists_false,
      reduceCtorEq, true_and, and_true, exists_const] at he
  | genesisExported j path doc =>
    simp only [initNode, writeFile, run_bind_eq, run_pure_eq, mem_bind_log,
      run_bind_result_ok_iff, mem_pure_log, pure_result, mem_emit_log, emit_result,
      mem_orReturn_log, orReturn_result, mem_orRollback_log, orRollback_result, mem_ofExcept_log,
      ofExcept_result, mem_onError_rollback_log, onError_rollback_result, errorOnly_ok_iff,
      valueAndError_ok_iff, false_or, or_false, false_and, and_false, exists_false,
      reduceCtorEq, true_and, and_true, exists_const] at he
  | _ => simp [eventChainID] at hc

theorem initNodes_step (env : Env) (p : Params) (c : String) (k i : Nat) (st : LoopState) :
    initNodes env p c (k + 1) i st
      = (initNode env p c i st).bind (fun st2 => initNodes env p c k (i + 1) st2) := rfl

theorem signed_mem_initNodes (env : Env) (p : Params) (c : String) (config : Config) :
    ∀ (k i : Nat) (st : LoopState) (j : Nat) (name c2 : String) (tx : StdTx),
      st.config.genesis = config.genesis →
      Event.signed j name c2 tx ∈ (initNodes env p c k i st).log →
      i ≤ j ∧ j < i + k ∧ name = p.nodeDirPrefix ++ toString j ∧ c2 = c
      ∧ ∃ v, GeneratedNode env p config j v ∧ tx = joinTx env p j v := by
  intro k
  induction k with
  | zero =>
    intro i st j name c2 tx _ h
    simp [initNodes, run_pure_eq, Run.pure] at h
  | succ k ih =>
    intro i st j name c2 tx hgen h
    rw [initNodes_step, mem_bind_log] at h
    rcases h with h | ⟨st1, h1, h2⟩
    · obtain ⟨hj, hname, hc, v, hv, htx⟩ := signed_mem_initNode env p c i st j name c2 tx h
      subst hj
      exact ⟨le_refl _, by omega, hname, hc, v, GeneratedNode_congr env p _ _ _ v hgen hv, htx⟩
    · have hrun : initNode env p c i st = ⟨(initNode env p c i st).log, .ok st1⟩ := by
        rw [run_eq_iff]
        exact ⟨rfl, h1⟩
      obtain ⟨v, -, -, hst1⟩ := initNode_ok env p c i st st1 _ hrun
      have hgen1 : st1.config.genesis = config.genesis := by
        rw [hst1]
        exact hgen
      obtain ⟨h3, h4, h5⟩ := ih (i + 1) st1 j name c2 tx hgen1 h2
      exact ⟨by omega, by omega, h5⟩

theorem initNodes_chainID (env : Env) (p : Params) (c : String) :
    ∀ (k i : Nat) (st : LoopState) (e : Event), e ∈ (initNodes env p c k i st).log →
      ∀ c2, eventChainID e = some c2 → c2 = c := by
  intro k
  induction k with
  | zero =>
    intro i st e h
    simp [initNodes, run_pure_eq, Run.pure] at h
  | succ k ih =>
    intro i st e h c2 hc
    rw [initNodes_step, mem_bind_log] at h
    rcases h with h | ⟨st1, -, h2⟩
    · exact initNode_chainID env p c i st e h c2 hc
    · exact ih (i + 1) st1 e h2 c2 hc

theorem initGenFilesLoop_events (env : Env) (genDoc : GenesisDoc) (genFiles : List String) :
    ∀ (k i : Nat) (e : Event), e ∈ (initGenFilesLoop env genDoc genFiles k i).log →
      ∃ j path, e = .genesisSaved j path genDoc := by
  intro k
  induction k with
  | zero =>
    intro i e h
    simp [initGenFilesLoop, run_pure_eq, Run.pure] at h
  | succ k ih =>
    intro i e h
    simp only [initGenFilesLoop, run_bind_eq, mem_bind_log, mem_ofExcept_log, mem_orReturn_log,
      mem_emit_log, false_or] at h
    obtain ⟨genFile, -, h⟩ := h
    rcases h with ⟨_, -, h | ⟨_, -, h⟩⟩
    · exact ⟨i, genFile, h⟩
    · exact ih (i + 1) e h

theorem initGenFiles_events (env : Env) (c : String) (genAccounts : List EthAccount)
    (genFiles : List String) (n : Nat) (e : Event)
    (h : e ∈ (initGenFiles env c genAccounts genFiles n).log) :
    ∃ j path doc, e = .genesisSaved j path doc ∧ doc.chainID = c := by
  simp only [initGenFiles, run_bind_eq, mem_bind_log, mem_ofExcept_log, mem_orReturn_log,
    false_or] at h
  obtain ⟨_, -, _, -, h⟩ := h
  obtain ⟨j, path, he⟩ := initGenFilesLoop_events env _ genFiles n 0 e h
  exact ⟨j, path, _, he, rfl⟩

theorem collectGenFilesLoop_events (env : Env) (c : String) (nodeIDs : Nat → String)
    (valPubKeys : Nat → PubKey) (outputDir nodeDirPrefix nodeDaemonHome : String) (genTime : Nat) :
    ∀ (k i : Nat) (config : Config) (appState : RawMessage) (e : Event),
      e ∈ (collectGenFilesLoop env c nodeIDs valPubKeys outputDir nodeDirPrefix nodeDaemonHome
        genTime k i config appState).log →
      ∃ j path doc, e = .genesisExported j path doc ∧ doc.chainID = c
        ∧ doc.genesisTime = genTime := by
  intro k
  induction k with
  | zero =>
    intro i config appState e h
    simp [collectGenFilesLoop, run_pure_eq, Run.pure] at h
  | succ k ih =>
    intro i config appState e h
    simp only [collectGenFilesLoop, ExportGenesisFileWithTime, run_bind_eq, mem_bind_log,
      mem_orReturn_log, mem_emit_log, false_or, run_bind_result_ok_iff] at h
    obtain ⟨genDoc, -, nodeApp, -, h⟩ := h
    rcases h with ⟨_, -, h⟩ | ⟨_, -, h⟩
    · exact ⟨_, _, _, h, rfl, rfl⟩
    · exact ih _ _ _ e h

theorem InitTestnet_eq (env : Env) (config : Config) (p : Params) :
    InitTestnet env config p
      = (initNodes env p (chainIDOrRandom env p.chainID) p.numValidators 0
          (initialLoopState config)).bind (fun st =>
        (initGenFiles env (chainIDOrRandom env p.chainID) st.genAccounts st.genFiles
          p.numValidators).bind (fun _ =>
        collectGenFiles env st.config (chainIDOrRandom env p.chainID) st.nodeIDs st.valPubKeys
          p.numValidators p.outputDir p.nodeDirPrefix p.nodeDaemonHome)) := rfl

theorem signed_mem_InitTestnet (env : Env) (config : Config) (p : Params)
    (j : Nat) (name c2 : String) (tx : StdTx)
    (h : Event.signed j name c2 tx ∈ (InitTestnet env config p).log) :
    j < p.numValidators ∧ name = p.nodeDirPrefix ++ toString j
    ∧ c2 = chainIDOrRandom env p.chainID
    ∧ ∃ v, GeneratedNode env p config j v ∧ tx = joinTx env p j v := by
  rw [InitTestnet_eq, mem_bind_log, ] at h
  rcases h with h | ⟨st, -, h⟩
  · obtain ⟨-, h2, h3⟩ := signed_mem_initNodes env p _ config p.numValidators 0
      (initialLoopState config) j name c2 tx rfl h
    exact ⟨by omega, h3⟩
  · rw [mem_bind_log] at h
    rcases h with h | ⟨_, -, h⟩
    · obtain ⟨_, _, _, he, -⟩ := initGenFiles_events env _ _ _ _ _ h
      cases he
    · obtain ⟨_, _, _, he, -⟩ := collectGenFilesLoop_events env _ _ _ _ _ _ _ _ _ _ _ _ h
      cases he

theorem digitChar_isDigit : ∀ d < 10, (Nat.digitChar d).isDigit = true := by decide

theorem toDigitsCore_isDigit : ∀ (fuel n : Nat) (ds : List Char),
    (∀ ch ∈ ds, ch.isDigit = true) → ∀ ch ∈ Nat.toDigitsCore 10 fuel n ds, ch.isDigit = true := by
  intro fuel
  induction fuel with
  | zero =>
    intro n ds hds ch hch
    simpa [Nat.toDigitsCore] using hds ch hch
  | succ fuel ih =>
    intro n ds hds ch hch
    have hd : ∀ x ∈ Nat.digitChar (n % 10) :: ds, x.isDigit = true := by
      intro x hx
      rcases List.mem_cons.mp hx with h | h
      · rw [h]
        exact digitChar_isDigit _ (Nat.mod_lt _ (by decide))
      · exact hds x h
    unfold Nat.toDigitsCore at hch
    simp only at hch
    split_ifs at hch with h0
    · exact hd ch hch
    · exact ih _ _ hd ch hch

theorem toDigitsCore_ne_nil : ∀ (fuel n : Nat) (ds : List Char),
    ds ≠ [] ∨ 0 < fuel → Nat.toDigitsCore 10 fuel n ds ≠ [] := by
  intro fuel
  induction fuel with
  | zero =>
    intro n ds h
    rcases h with h | h
    · simpa [Nat.toDigitsCore] using h
    · omega
  | succ fuel ih =>
    intro n ds _
    unfold Nat.toDigitsCore
    simp only
    split_ifs with h0
    · simp
    · exact ih _ _ (Or.inl (by simp))

theorem toString_nat_digits (n : Nat) :
    (toString n).data ≠ [] ∧ ∀ ch ∈ (toString n).data, ch.isDigit = true := by
  have h : (toString n).data = Nat.toDigits 10 n := rfl
  rw [h]
  exact ⟨toDigitsCore_ne_nil _ _ _ (Or.inr (Nat.succ_pos n)),
    toDigitsCore_isDigit _ _ _ (by simp)⟩

theorem initGenFilesLoop_ok (env : Env) (genDoc : GenesisDoc) (genFiles : List String) :
    ∀ (k i : Nat) (log : List Event),
      initGenFilesLoop env genDoc genFiles k i = ⟨log, .ok ()⟩ →
      ∀ j, i ≤ j → j < i + k →
        ∃ path, genFiles[j]? = some path ∧ Event.genesisSaved j path genDoc ∈ log := by
  intro k
  induction k with
  | zero =>
    intro i log _ j h1 h2
    omega
  | succ k ih =>
    intro i log h j h1 h2
    have hres : (initGenFilesLoop env genDoc genFiles (k + 1) i).result = .ok () := by rw [h]
    have hlog : log = (initGenFilesLoop env genDoc genFiles (k + 1) i).log := by rw [h]
    simp only [initGenFilesLoop, run_bind_eq, run_bind_result_ok_iff, ofExcept_result,
      orReturn_result, emit_result, errorOnly_ok_iff, must_eq_ok, true_and, exists_const] at hres
    obtain ⟨genFile, hfile, hsave, hrest⟩ := hres
    have hmem : ∀ e, (e = Event.genesisSaved i genFile genDoc
        ∨ e ∈ (initGenFilesLoop env genDoc genFiles k (i + 1)).log) → e ∈ log := by
      intro e he
      rw [hlog]
      simp only [initGenFilesLoop, run_bind_eq, mem_bind_log, mem_ofExcept_log,
        mem_orReturn_log, mem_emit_log, false_or, ofExcept_result, orReturn_result,
        emit_result, errorOnly_ok_iff, must_eq_ok, true_and, exists_const]
      exact ⟨genFile, hfile, hsave, he⟩
    by_cases hji : j = i
    · subst hji
      exact ⟨genFile, hfile, hmem _ (Or.inl rfl)⟩
    · have hrun : initGenFilesLoop env genDoc genFiles k (i + 1)
          = ⟨(initGenFilesLoop env genDoc genFiles k (i + 1)).log, .ok ()⟩ := by
        rw [run_eq_iff]
        exact ⟨rfl, hrest⟩
      obtain ⟨path, hp, hin⟩ := ih (i + 1) _ hrun j (by omega) (by omega)
      exact ⟨path, hp, hmem _ (Or.inr hin)⟩

theorem initGenFiles_ok (env : Env) (c : String) (genAccounts : List EthAccount)
    (genFiles : List String) (n : Nat) (log : List Event)
    (h : initGenFiles env c genAccounts genFiles n = ⟨log, .ok ()⟩) :
    ∃ appGenState json,
      initGenFilesAppGenState env genAccounts = .ok appGenState
      ∧ env.marshalJSONIndent appGenState = .ok json
      ∧ ∀ j, j < n → ∃ path, genFiles[j]? = some path
          ∧ Event.genesisSaved j path
              { genesisTime := 0, chainID := c, validators := [], appState := some json }
            ∈ log := by
  have hres : (initGenFiles env c genAccounts genFiles n).result = .ok () := by rw [h]
  have hlog : log = (initGenFiles env c genAccounts genFiles n).log := by rw [h]
  simp only [initGenFiles, run_bind_eq, run_bind_result_ok_iff, ofExcept_result,
    orReturn_result] at hres
  obtain ⟨appGenState, happ, json, hjson, hrest⟩ := hres
  refine ⟨appGenState, json, happ, hjson, ?_⟩
  intro j hj
  have hrun : initGenFilesLoop env ⟨0, c, [], some json⟩ genFiles n 0
      = ⟨(initGenFilesLoop env ⟨0, c, [], some json⟩ genFiles n 0).log, .ok ()⟩ := by
    rw [run_eq_iff]
    exact ⟨rfl, hrest⟩
  obtain ⟨path, hp, hin⟩ := initGenFilesLoop_ok env _ genFiles n 0 _ hrun j (Nat.zero_le j)
    (by omega)
  refine ⟨path, hp, ?_⟩
  rw [hlog]
  simp only [initGenFiles, run_bind_eq, mem_bind_log, mem_ofExcept_log, mem_orReturn_log,
    false_or, ofExcept_result, orReturn_result]
  exact ⟨appGenState, happ, json, hjson, hin⟩

theorem getIP_starting (env : Env) (i : Nat)
    (hparse : env.parseIPTo4 "192.168.0.1" = some ⟨192, 168, 0, 1⟩) :
    getIP env.parseIPTo4 (env.externalIP i) (i : Int) "192.168.0.1"
      = (IPv4.String ⟨192, 168, 0, (1 + i) % 256⟩, none) := by
  have hlen : ¬ ("192.168.0.1".length = 0) := by decide
  simp only [getIP, hlen, if_false]
  exact calculateIP_of_parse env.parseIPTo4 "192.168.0.1" ⟨192, 168, 0, 1⟩ i hparse (by decide)

set_option maxRecDepth 1000000 in
/-- C7 as stated fails: in a run with 256 validators from 192.168.0.1 in which every library call
succeeds, the join transaction signed for node 255 carries the memo `id255@192.168.0.0:26656`,
where `id255` is the node ID generated for node 255: the last octet has wrapped to 0, it is not
256. -/
theorem InitTestnet_memo_wraps :
    ((InitTestnet demoEnv demoConfig (demoParams 256 "" "test")).log.filterMap signedMemo)[255]?
      = some (255, "id255@192.168.0.0:26656")
    ∧ demoEnv.initializeNodeValidatorFiles 255
        (initNodeConfig demoConfig (demoParams 256 "" "test") 255) = .ok ("id255", [255])
    ∧ "id255@192.168.0.0:26656" ≠ "id255@192.168.0.256:46656" := by
  refine ⟨by rfl, by rfl, by decide⟩

/-- The port of the memo: in a run with one validator in which every library call succeeds, the
join transaction of node 0 carries the memo `id0@192.168.0.1:26656`, with the port 26656 of line
159 of `client/testnet.go`, where the help text of the `starting-ip-address` flag (line 92) shows
46656. -/
theorem InitTestnet_memo_port :
    (InitTestnet demoEnv demoConfig (demoParams 1 "" "test")).log.filterMap signedMemo
      = [(0, "id0@192.168.0.1:26656")] := by
  rfl

/-- C7, amended: with starting IP address 192.168.0.1, whatever the outcome of the run, the memo
of the join transaction that `InitTestnet` hands to the signer for node `i` starts with
`ID_i@192.168.0.e:`, where `ID_i` is the node ID generated for node `i` and `e = (1 + i) mod 256`
(so `ID0@192.168.0.1:`, `ID1@192.168.0.2:`, ..., and the last octet wraps after node 254); what
follows the colon is the port. -/
theorem InitTestnet_memo (env : Env) (config : Config) (p : Params)
    (hip : p.startingIPAddress = "192.168.0.1")
    (hparse : env.parseIPTo4 "192.168.0.1" = some ⟨192, 168, 0, 1⟩)
    (i : Nat) (name c : String) (tx : StdTx)
    (hmem : Event.signed i name c tx ∈ (InitTestnet env config p).log) :
    ∃ (nodeID : String) (valPubKey : PubKey) (port : String),
      env.initializeNodeValidatorFiles i (initNodeConfig config p i) = .ok (nodeID, valPubKey)
      ∧ tx.memo = nodeID ++ "@" ++ IPv4.String ⟨192, 168, 0, (1 + i) % 256⟩ ++ ":" ++ port := by
  obtain ⟨-, -, -, v, hv, htx⟩ := signed_mem_InitTestnet env config p i name c tx hmem
  obtain ⟨hgetip, hnode, -⟩ := hv
  rw [hip, getIP_starting env i hparse] at hgetip
  have hvip : v.ip = IPv4.String ⟨192, 168, 0, (1 + i) % 256⟩ := by
    have := congrArg Prod.fst hgetip
    exact this.symm
  refine ⟨v.nodeID, v.valPubKey, "26656", hnode, ?_⟩
  rw [htx, ← hvip]
  simp only [joinTx, NewStdTx, String.append_assoc]
  rfl

/-- Instance of the amended C7: two validators, every library call succeeding; the join
transaction of node 1 carries a memo that starts with `id1@192.168.0.2:`. -/
theorem InitTestnet_memo_witness :
    ∃ (nodeID : String) (valPubKey : PubKey) (port : String),
      demoEnv.initializeNodeValidatorFiles 1 (initNodeConfig demoConfig (demoParams 2 "" "test") 1)
        = .ok (nodeID, valPubKey)
      ∧ (joinTx demoEnv (demoParams 2 "" "test") 1
          ⟨"192.168.0.2", "id1", [1], 1, [1], "secret words",
            [⟨"aphoton", 5000000000⟩, ⟨"stake", 1000000000⟩]⟩).memo
        = nodeID ++ "@" ++ IPv4.String ⟨192, 168, 0, (1 + 1) % 256⟩ ++ ":" ++ port :=
  InitTestnet_memo demoEnv demoConfig (demoParams 2 "" "test") (by rfl) (by rfl) 1 "node1" "42"
    (joinTx demoEnv (demoParams 2 "" "test") 1
      ⟨"192.168.0.2", "id1", [1], 1, [1], "secret words",
        [⟨"aphoton", 5000000000⟩, ⟨"stake", 1000000000⟩]⟩)
    (by decide)

theorem NewCoins_account_amount (bond native : String) (m : Int) (coins : List Coin)
    (h : NewCoins [⟨bond, TokensFromConsensusPower m 1000⟩,
      ⟨native, TokensFromConsensusPower m 5000⟩] = .ok coins) :
    AmountOf coins native = TokensFromConsensusPower m 5000 := by
  unfold NewCoins at h
  simp only [TokensFromConsensusPower] at h ⊢
  by_cases hm : m = 0
  · subst hm
    simp at h
    subst h
    simp [AmountOf]
  · have h1 : (1000 : Int) * m ≠ 0 := by omega
    have h2 : (5000 : Int) * m ≠ 0 := by omega
    simp only [List.filter, h1, h2, ne_eq, not_false_eq_true, decide_True, List.isEmpty_cons,
      Bool.false_eq_true, if_false, List.insertionSort, List.orderedInsert] at h
    split_ifs at h with hle hdup hdup
    · simp only [Except.ok.injEq] at h
      subst h
      simp only [findDup, Bool.or_false, decide_eq_true_eq] at hdup
      simp [AmountOf, List.find?, hdup]
    · simp only [Except.ok.injEq] at h
      subst h
      simp [AmountOf, List.find?]

theorem GeneratedNode_unique (env : Env) (p : Params) (config : Config) (i : Nat)
    (v w : NodeValues) (hv : GeneratedNode env p config i v) (hw : GeneratedNode env p config i w) :
    v = w := by
  obtain ⟨h1, h2, h3, h4, -, h6⟩ := hv
  obtain ⟨g1, g2, g3, g4, -, g6⟩ := hw
  rw [h1] at g1
  rw [h2] at g2
  rw [h3] at g3
  rw [h6] at g6
  simp only [Prod.mk.injEq, Except.ok.injEq, and_true] at g1 g2 g3 g6
  cases v
  cases w
  simp only at g1 g2 g3 g6 h4 g4
  obtain ⟨g2a, g2b⟩ := g2
  subst g1 g2a g2b g3 g6
  rw [h4] at g4
  simp only [Prod.mk.injEq, Except.ok.injEq] at g4
  obtain ⟨g4a, g4b⟩ := g4
  subst g4a g4b
  rfl

theorem initNodes_ok (env : Env) (p : Params) (c : String) (config : Config) :
    ∀ (k i : Nat) (st st2 : LoopState) (log : List Event),
      st.config.genesis = config.genesis → st.genAccounts.length = i →
      initNodes env p c k i st = ⟨log, .ok st2⟩ →
      st2.genAccounts.length = i + k
      ∧ (∀ j, j < i → st2.genAccounts[j]? = st.genAccounts[j]?)
      ∧ ∀ j, i ≤ j → j < i + k →
          ∃ v, GeneratedNode env p config j v
            ∧ Event.signed j (p.nodeDirPrefix ++ toString j) c (joinTx env p j v) ∈ log
            ∧ st2.genAccounts[j]? = some (nodeAccount env v) := by
  intro k
  induction k with
  | zero =>
    intro i st st2 log _ hlen h
    simp only [initNodes, run_pure_eq, run_pure_ok_iff] at h
    obtain ⟨-, hst⟩ := h
    subst hst
    exact ⟨hlen, fun _ _ => rfl, fun j h1 h2 => by omega⟩
  | succ k ih =>
    intro i st st2 log hgen hlen h
    rw [initNodes_step, run_bind_ok_iff] at h
    obtain ⟨st1, l1, l2, h1, h2, hlog⟩ := h
    obtain ⟨v, hv, hsigned, hst1⟩ := initNode_ok env p c i st st1 l1 h1
    have hgen1 : st1.config.genesis = config.genesis := by
      rw [hst1]
      exact hgen
    have hlen1 : st1.genAccounts.length = i + 1 := by
      rw [hst1]
      simp [hlen]
    obtain ⟨r1, r2, r3⟩ := ih (i + 1) st1 st2 l2 hgen1 hlen1 h2
    have hacc : ∀ j, j ≤ i → st1.genAccounts[j]?
        = (st.genAccounts ++ [nodeAccount env v])[j]? := by
      intro j _
      rw [hst1]
    refine ⟨by omega, ?_, ?_⟩
    · intro j hj
      rw [r2 j (by omega), hacc j (by omega)]
      exact List.getElem?_append_left (by omega)
    · intro j hj1 hj2
      by_cases hji : j = i
      · subst hji
        refine ⟨v, GeneratedNode_congr env p _ _ _ v hgen hv, ?_, ?_⟩
        · rw [hlog]
          exact List.mem_append_left _ hsigned
        · rw [r2 j (by omega), hacc j (le_refl _)]
          rw [List.getElem?_append_right (by omega)]
          simp [hlen]
      · obtain ⟨w, hw, hws, hwa⟩ := r3 j (by omega) (by omega)
        refine ⟨w, hw, ?_, hwa⟩
        rw [hlog]
        exact List.mem_append_right _ hws

/-- C8: the chain ID of a run of `InitTestnet` depends on the supplied chain ID and the random
source alone, so it is fixed before the loop over the nodes starts, and it is never empty: a
supplied chain ID that is not empty is used unchanged, and for an empty one the chain ID is the
decimal text of a random integer below `2 ^ 63` that is not negative, a text of digits that is
not empty. Whatever the outcome of the run, every join transaction that was signed was signed for
that chain ID, and every genesis document written carries it. On a run that returns without
error, for every node a join transaction was signed for that chain ID, the draft genesis document
of `initGenFiles` was saved with it and the collected genesis document of `collectGenFiles` was
written with it. -/
theorem InitTestnet_chainID (env : Env) (config : Config) (p : Params) :
    chainIDOrRandom env p.chainID ≠ ""
    ∧ (p.chainID ≠ "" → chainIDOrRandom env p.chainID = p.chainID)
    ∧ (p.chainID = "" →
        chainIDOrRandom env p.chainID = toString (env.int63 % 2 ^ 63)
        ∧ env.int63 % 2 ^ 63 < 2 ^ 63
        ∧ (chainIDOrRandom env p.chainID).data ≠ []
        ∧ ∀ ch ∈ (chainIDOrRandom env p.chainID).data, ch.isDigit = true)
    ∧ (∀ e ∈ (InitTestnet env config p).log, ∀ c, eventChainID e = some c →
        c = chainIDOrRandom env p.chainID)
    ∧ ∀ log, InitTestnet env config p = ⟨log, .ok ()⟩ → ∀ i, i < p.numValidators →
        (∃ tx, Event.signed i (p.nodeDirPrefix ++ toString i)
            (chainIDOrRandom env p.chainID) tx ∈ log)
        ∧ (∃ path appState, Event.genesisSaved i path
            { genesisTime := 0, chainID := chainIDOrRandom env p.chainID, validators := [],
              appState := appState } ∈ log)
        ∧ (∃ path appState, Event.genesisExported i path
            { genesisTime := env.now, chainID := chainIDOrRandom env p.chainID,
              validators := [], appState := appState } ∈ log) := by
  have hrand : p.chainID = "" →
      chainIDOrRandom env p.chainID = toString (env.int63 % 2 ^ 63) := by
    intro h
    simp [chainIDOrRandom, h]
  have hgiven : p.chainID ≠ "" → chainIDOrRandom env p.chainID = p.chainID := by
    intro h
    simp [chainIDOrRandom, h]
  refine ⟨?_, hgiven, ?_, ?_, ?_⟩
  · by_cases h : p.chainID = ""
    · rw [hrand h]
      intro h2
      have h3 := (toString_nat_digits (env.int63 % 2 ^ 63)).1
      rw [h2] at h3
      exact h3 rfl
    · rw [hgiven h]
      exact h
  · intro h
    rw [hrand h]
    exact ⟨rfl, Nat.mod_lt _ (by positivity), (toString_nat_digits _).1,
      (toString_nat_digits _).2⟩
  · intro e he c hc
    rw [InitTestnet_eq, mem_bind_log] at he
    rcases he with he | ⟨st, -, he⟩
    · exact initNodes_chainID env p _ p.numValidators 0 _ e he c hc
    · rw [mem_bind_log] at he
      rcases he with he | ⟨_, -, he⟩
      · obtain ⟨_, _, doc, h1, h2⟩ := initGenFiles_events env _ _ _ _ _ he
        subst h1
        simp only [eventChainID, Option.some.injEq] at hc
        rw [← hc, h2]
      · obtain ⟨_, _, doc, h1, h2, -⟩ := collectGenFilesLoop_events env _ _ _ _ _ _ _ _ _ _ _ _ he
        subst h1
        simp only [eventChainID, Option.some.injEq] at hc
        rw [← hc, h2]
  · intro log hrun i hi
    rw [InitTestnet_eq, run_bind_ok_iff] at hrun
    obtain ⟨st, l1, l2, h1, h2, hl⟩ := hrun
    rw [run_bind_ok_iff] at h2
    obtain ⟨u, l3, l4, h3, h4, hl2⟩ := h2
    obtain ⟨-, -, r3⟩ := initNodes_ok env p (chainIDOrRandom env p.chainID) config
      p.numValidators 0 (initialLoopState config) st l1 rfl rfl h1
    obtain ⟨v, -, hsigned, -⟩ := r3 i (Nat.zero_le i) (by omega)
    obtain ⟨appGenState, json, -, -, hsaved⟩ := initGenFiles_ok env _ _ _ _ l3 h3
    obtain ⟨path, -, hsavedi⟩ := hsaved i hi
    obtain ⟨-, hl4⟩ := collectGenFiles_ok env st.config _ st.nodeIDs st.valPubKeys
      p.numValidators p.outputDir p.nodeDirPrefix p.nodeDaemonHome l4 h4
    refine ⟨⟨joinTx env p i v, ?_⟩, ⟨path, some json, ?_⟩,
      ⟨(collectConfig st.config p.outputDir p.nodeDirPrefix p.nodeDaemonHome i).GenesisFile,
        firstNonNil (derivedAppState env st.config (chainIDOrRandom env p.chainID) st.nodeIDs
          st.valPubKeys p.outputDir p.nodeDirPrefix p.nodeDaemonHome) (i + 1), ?_⟩⟩
    · rw [hl]
      exact List.mem_append_left _ hsigned
    · rw [hl, hl2]
      exact List.mem_append_right _ (List.mem_append_left _ hsavedi)
    · rw [hl, hl2, hl4]
      apply List.mem_append_right
      apply List.mem_append_right
      rw [List.mem_map]
      exact ⟨i, List.mem_range.mpr hi, rfl⟩

/-- Instance of C8: two validators, no chain ID supplied, the random source answering 42 and every
library call succeeding; the chain ID is `42`, and for both nodes the join transaction, the draft
genesis document and the collected genesis document carry it. -/
theorem InitTestnet_chainID_witness :
    chainIDOrRandom demoEnv (demoParams 2 "" "test").chainID = "42"
    ∧ ∀ i, i < 2 →
        (∃ tx, Event.signed i ("node" ++ toString i) "42" tx
          ∈ (InitTestnet demoEnv demoConfig (demoParams 2 "" "test")).log)
        ∧ (∃ path appState, Event.genesisSaved i path
            { genesisTime := 0, chainID := "42", validators := [], appState := appState }
          ∈ (InitTestnet demoEnv demoConfig (demoParams 2 "" "test")).log)
        ∧ (∃ path appState, Event.genesisExported i path
            { genesisTime := 1600000000, chainID := "42", validators := [], appState := appState }
          ∈ (InitTestnet demoEnv demoConfig (demoParams 2 "" "test")).log) :=
  ⟨by rfl,
    (InitTestnet_chainID demoEnv demoConfig (demoParams 2 "" "test")).2.2.2.2 _ (by rfl)⟩

/-- C10: on a run of `InitTestnet` that returns without error, the accounts handed to
`initGenFiles` are one per node, the application state it assembles carries them as the accounts of
the auth fragment and the native denomination as the bond denomination of the staking fragment,
the draft genesis document saved for every node carries the encoding of that state, and for every
node `i` the join transaction signed for it (the only one signed for that node) has
one create-validator message, whose delegator and validator address is the address of the `i`-th
genesis account, whose self-stake is in the native denomination and amounts to consensus power 100
times the token multiplier, which is not negative; the balance of that denomination on that account
is consensus power 5000 times the multiplier, so the self-stake is no larger than the balance. -/
theorem InitTestnet_join_tx_fundable (env : Env) (config : Config) (p : Params)
    (log : List Event) (hrun : InitTestnet env config p = ⟨log, .ok ()⟩) :
    ∃ (genAccounts : List EthAccount) (appGenState : GenesisState) (a : AuthGenesisState)
      (s : StakingGenesisState) (json : Bytes),
      initGenFilesAppGenState env genAccounts = .ok appGenState
      ∧ genAccounts.length = p.numValidators
      ∧ env.unmarshalAuth (env.defaultGenesis authModuleName) = some a
      ∧ appGenState authModuleName = env.marshalAuth ⟨a.params, genAccounts⟩
      ∧ env.unmarshalStaking (env.defaultGenesis stakingModuleName) = some s
      ∧ appGenState stakingModuleName = env.marshalStaking
          ⟨⟨s.params.unbondingTime, s.params.maxValidators, s.params.maxEntries,
            s.params.historicalEntries, env.denomDefault⟩, s.others⟩
      ∧ env.marshalJSONIndent appGenState = .ok json
      ∧ (∀ i, i < p.numValidators → ∃ path, Event.genesisSaved i path
          { genesisTime := 0, chainID := chainIDOrRandom env p.chainID, validators := [],
            appState := some json } ∈ log)
      ∧ ∀ i, i < p.numValidators →
          ∃ (tx : StdTx) (msg : MsgCreateValidator) (account : EthAccount),
            Event.signed i (p.nodeDirPrefix ++ toString i) (chainIDOrRandom env p.chainID) tx ∈ log
            ∧ (∀ name c tx2, Event.signed i name c tx2 ∈ log → tx2 = tx)
            ∧ tx.msgs = [msg]
            ∧ genAccounts[i]? = some account
            ∧ msg.delegatorAddress = account.baseAccount.address
            ∧ msg.validatorAddress = account.baseAccount.address
            ∧ msg.value.denom = env.denomDefault
            ∧ msg.value.amount = TokensFromConsensusPower env.powerReduction 100
            ∧ 0 ≤ env.powerReduction
            ∧ AmountOf account.baseAccount.coins env.denomDefault
                = TokensFromConsensusPower env.powerReduction 5000
            ∧ msg.value.amount ≤ AmountOf account.baseAccount.coins env.denomDefault := by
  have hlog : log = (InitTestnet env config p).log := by rw [hrun]
  rw [InitTestnet_eq, run_bind_ok_iff] at hrun
  obtain ⟨st, l1, l2, h1, h2, hl⟩ := hrun
  rw [run_bind_ok_iff] at h2
  obtain ⟨u, l3, l4, h3, -, hl2⟩ := h2
  obtain ⟨appGenState, json, happ, hjson, hsaved⟩ := initGenFiles_ok env _ _ _ _ l3 h3
  obtain ⟨a, s, g, m, cr, coin, rest, aj, sj, gj, mj, cj, ha, hs, -, -, -, -, haj, hsj, -, -, -,
    hst⟩ := initGenFilesAppGenState_ok env st.genAccounts appGenState happ
  obtain ⟨r1, -, r3⟩ := initNodes_ok env p (chainIDOrRandom env p.chainID) config
    p.numValidators 0 (initialLoopState config) st l1 rfl rfl h1
  have n1 : stakingModuleName ≠ authModuleName := by decide
  have n2 : govModuleName ≠ authModuleName := by decide
  have n3 : govModuleName ≠ stakingModuleName := by decide
  have n4 : mintModuleName ≠ authModuleName := by decide
  have n5 : mintModuleName ≠ stakingModuleName := by decide
  have n7 : crisisModuleName ≠ authModuleName := by decide
  have n8 : crisisModuleName ≠ stakingModuleName := by decide
  refine ⟨st.genAccounts, appGenState, a, s, json, happ, by omega, ha, ?_, hs, ?_, hjson, ?_,
    ?_⟩
  · rw [hst, haj]
    simp [Function.update_noteq n1.symm, Function.update_noteq n2.symm,
      Function.update_noteq n4.symm, Function.update_noteq n7.symm]
  · rw [hst, hsj]
    simp [Function.update_noteq n3.symm, Function.update_noteq n5.symm,
      Function.update_noteq n8.symm]
  · intro i hi
    obtain ⟨path, -, hin⟩ := hsaved i hi
    refine ⟨path, ?_⟩
    rw [hl, hl2]
    exact List.mem_append_right _ (List.mem_append_left _ hin)
  · intro i hi
    obtain ⟨v, hv, hsigned, hacc⟩ := r3 i (Nat.zero_le i) (by omega)
    have hamount := NewCoins_account_amount _ _ _ _ hv.2.2.2.2.2
    have hpos := hv.2.2.2.2.1
    refine ⟨joinTx env p i v, joinMsg env p i v, nodeAccount env v, ?_, ?_, rfl, hacc, rfl, rfl,
      rfl, rfl, hpos, hamount, ?_⟩
    · rw [hl]
      exact List.mem_append_left _ hsigned
    · intro name c tx2 hmem
      rw [hlog] at hmem
      obtain ⟨-, -, -, w, hw, htx⟩ := signed_mem_InitTestnet env config p i name c tx2 hmem
      rw [htx, GeneratedNode_unique env p config i w v hw hv]
    · show (joinMsg env p i v).value.amount ≤ AmountOf (nodeAccount env v).baseAccount.coins _
      have h5 : AmountOf (nodeAccount env v).baseAccount.coins env.denomDefault
          = TokensFromConsensusPower env.powerReduction 5000 := hamount
      rw [h5]
      simp only [joinMsg, NewMsgCreateValidator, TokensFromConsensusPower]
      omega

/-- Instance of C10: two validators, every library call succeeding. -/
theorem InitTestnet_join_tx_fundable_witness :
    ∃ (genAccounts : List EthAccount) (appGenState : GenesisState) (a : AuthGenesisState)
      (s : StakingGenesisState) (json : Bytes),
      initGenFilesAppGenState demoEnv genAccounts = .ok appGenState
      ∧ genAccounts.length = (demoParams 2 "" "test").numValidators
      ∧ demoEnv.unmarshalAuth (demoEnv.defaultGenesis authModuleName) = some a
      ∧ appGenState authModuleName = demoEnv.marshalAuth ⟨a.params, genAccounts⟩
      ∧ demoEnv.unmarshalStaking (demoEnv.defaultGenesis stakingModuleName) = some s
      ∧ appGenState stakingModuleName = demoEnv.marshalStaking
          ⟨⟨s.params.unbondingTime, s.params.maxValidators, s.params.maxEntries,
            s.params.historicalEntries, demoEnv.denomDefault⟩, s.others⟩
      ∧ demoEnv.marshalJSONIndent appGenState = .ok json
      ∧ (∀ i, i < (demoParams 2 "" "test").numValidators → ∃ path, Event.genesisSaved i path
          { genesisTime := 0, chainID := chainIDOrRandom demoEnv (demoParams 2 "" "test").chainID,
            validators := [], appState := some json }
          ∈ (InitTestnet demoEnv demoConfig (demoParams 2 "" "test")).log)
      ∧ ∀ i, i < (demoParams 2 "" "test").numValidators →
          ∃ (tx : StdTx) (msg : MsgCreateValidator) (account : EthAccount),
            Event.signed i ((demoParams 2 "" "test").nodeDirPrefix ++ toString i)
              (chainIDOrRandom demoEnv (demoParams 2 "" "test").chainID) tx
              ∈ (InitTestnet demoEnv demoConfig (demoParams 2 "" "test")).log
            ∧ (∀ name c tx2, Event.signed i name c tx2
                ∈ (InitTestnet demoEnv demoConfig (demoParams 2 "" "test")).log → tx2 = tx)
            ∧ tx.msgs = [msg]
            ∧ genAccounts[i]? = some account
            ∧ msg.delegatorAddress = account.baseAccount.address
            ∧ msg.validatorAddress = account.baseAccount.address
            ∧ msg.value.denom = demoEnv.denomDefault
            ∧ msg.value.amount = TokensFromConsensusPower demoEnv.powerReduction 100
            ∧ 0 ≤ demoEnv.powerReduction
            ∧ AmountOf account.baseAccount.coins demoEnv.denomDefault
                = TokensFromConsensusPower demoEnv.powerReduction 5000
            ∧ msg.value.amount ≤ AmountOf account.baseAccount.coins demoEnv.denomDefault :=
  InitTestnet_join_tx_fundable demoEnv demoConfig (demoParams 2 "" "test") _ (by rfl)

/-- C2 fails on the code: when `keys.NewKeyring` rejects the key ring backend for node 0,
`InitTestnet` returns the error after it has made the two directories of the node and written its
node key and validator key files, and it never calls `os.RemoveAll`: the output directory tree is
still there when the error is returned. -/
theorem InitTestnet_keyring_failure_keeps_tree :
    InitTestnet keyringFailEnv demoConfig (demoParams 1 "" "bogus")
      = ⟨[.mkdirAll 0 "build/node0/ethermintd/config",
          .mkdirAll 0 "build/node0/ethermintcli",
          .nodeValidatorFiles 0
            ⟨"build/node0/ethermintd", "node0", "tcp://0.0.0.0:26657", "config/genesis.json"⟩
            "id0" [0]],
         .error (.error "unknown keyring backend bogus")⟩
    ∧ Event.removeAll "build"
        ∉ (InitTestnet keyringFailEnv demoConfig (demoParams 1 "" "bogus")).log := by
  refine ⟨by rfl, by decide⟩

/-- The sibling path of the key ring failure: when signing fails for node 1 of three, the last
thing `InitTestnet` does before it returns the error is to call `os.RemoveAll` on the output
directory. -/
theorem InitTestnet_sign_failure_rolls_back :
    (InitTestnet signFailEnv demoConfig (demoParams 3 "" "test")).result
      = .error (.error "key not found")
    ∧ (InitTestnet signFailEnv demoConfig (demoParams 3 "" "test")).log.getLast?
      = some (Event.removeAll "build") := by
  refine ⟨by rfl, by rfl⟩

end Ethermint
